import Mathlib

/-!
Verification development for the grafana-monitor repository
(`grafana_python/instance_principal_v`): a family of Python scripts that
mirror OCI resource inventories into MySQL tables with a mark-and-sweep
synchronization scheme.

Shallow embedding conventions:
* a MySQL table is a `List` of row structures (one structure per table,
  carrying the table's columns; `DATETIME` values are modelled as `Int`
  naive-UTC timestamps, nullable columns as `Option`);
* `INSERT ... ON DUPLICATE KEY UPDATE` is `upsert_row`, parameterized by
  the key column and by the merge function induced by the statement's
  `UPDATE` column list (a full replace when every column is listed);
* `DELETE` sweeps are `List.filter` with the `WHERE` clause as predicate;
* a remote listing call is an input function returning `SvcRes`
  (`ok` payload or `svcErr status`, mirroring `oci.exceptions.ServiceError`);
  fallible helpers return `Except`;
* each script's driver (`main` / module level code) is embedded as a
  structurally recursive function over its scope list, threading the table
  and the seen-id set exactly as the source loops do.
-/

/-- Outcome of one OCI SDK call: payload, or a `ServiceError` with an HTTP
status code (429 = throttled, 404 = not found). -/
inductive SvcRes (α : Type) where
  | ok (val : α)
  | svcErr (status : Nat)
deriving DecidableEq, Repr

/-- `INSERT ... ON DUPLICATE KEY UPDATE` against a list-modelled table:
if some row shares the key with `v`, every such row is rewritten to
`merge old v` (the merge reflects exactly the statement's `UPDATE` list);
otherwise `v` is appended. -/
def upsert_row {α : Type} (key : α → String) (merge : α → α → α) (v : α)
    (T : List α) : List α :=
  if ∃ r ∈ T, key r = key v then
    T.map (fun r => if key r = key v then merge r v else r)
  else
    T ++ [v]

/-- A sequence of upserts of `rows`, in order, against table `T`
(the body of the per-item `for` loops in the scripts). -/
def upsert_fold {α : Type} (key : α → String) (merge : α → α → α) :
    List α → List α → List α
  | [], T => T
  | v :: rows, T => upsert_fold key merge rows (upsert_row key merge v T)

/-- Hierarchy node: an OCI compartment (or the tenancy root) as consumed by
the path builders. `parent` is the `compartment_id` attribute, `lifecycle`
the `lifecycle_state` attribute (absent on the synthetic root). -/
structure Comp where
  id : String
  name : String
  parent : Option String
  lifecycle : Option String
deriving DecidableEq, Repr

/-- `build_compartment_paths` from `adb_list.py` (lines 179-204): for each
compartment, a two-level path; no special case for the root id. -/
def build_compartment_paths_adb (compartments : List Comp)
    (tenancy_id tenancy_name separator : String) : List (String × String) :=
  compartments.map (fun c =>
    match c.parent with
    | none => (c.id, tenancy_name ++ separator ++ c.name)
    | some p =>
      if p = tenancy_id then (c.id, tenancy_name ++ separator ++ c.name)
      else
        match compartments.find? (fun d => d.id == p) with
        | some par => (c.id, par.name ++ separator ++ c.name)
        | none => (c.id, c.name))

/-- `build_compartment_paths` from `instance_list.py` (lines 140-165): the
root id receives the entry `tenancy_name` itself; other nodes follow the
two-level rule. -/
def build_compartment_paths_instance (comp_map : List Comp)
    (tenancy_ocid separator : String) : List (String × String) :=
  let tenancy_name :=
    match comp_map.find? (fun c => c.id == tenancy_ocid) with
    | some root => root.name
    | none => "root"
  comp_map.map (fun c =>
    if c.id = tenancy_ocid then (c.id, tenancy_name)
    else
      match c.parent with
      | none => (c.id, tenancy_name ++ separator ++ c.name)
      | some p =>
        if p = tenancy_ocid then (c.id, tenancy_name ++ separator ++ c.name)
        else
          match comp_map.find? (fun d => d.id == p) with
          | some par => (c.id, par.name ++ separator ++ c.name)
          | none => (c.id, c.name))

/-- `build_compartment_paths` from `dbcs_list.py` (lines 184-211): the root
id is skipped (`continue`), other nodes follow the two-level rule. -/
def build_compartment_paths_dbcs (comp_map : List Comp)
    (tenancy_ocid tenancy_name separator : String) : List (String × String) :=
  comp_map.filterMap (fun c =>
    if c.id = tenancy_ocid then none
    else some
      (match c.parent with
       | none => (c.id, tenancy_name ++ separator ++ c.name)
       | some p =>
         if p = tenancy_ocid then (c.id, tenancy_name ++ separator ++ c.name)
         else
           match comp_map.find? (fun d => d.id == p) with
           | some par => (c.id, par.name ++ separator ++ c.name)
           | none => (c.id, c.name)))

/-- `build_compartment_paths` from `lb_list.py` (lines 131-156): same shape
as the dbcs builder (root skipped). -/
def build_compartment_paths_lb (comp_map : List Comp)
    (tenancy_ocid tenancy_name separator : String) : List (String × String) :=
  comp_map.filterMap (fun c =>
    if c.id = tenancy_ocid then none
    else some
      (match c.parent with
       | none => (c.id, tenancy_name ++ separator ++ c.name)
       | some p =>
         if p = tenancy_ocid then (c.id, tenancy_name ++ separator ++ c.name)
         else
           match comp_map.find? (fun d => d.id == p) with
           | some par => (c.id, par.name ++ separator ++ c.name)
           | none => (c.id, c.name)))

/-- `build_2level_compartment_path` from `filesystem_list.py` (lines 63-89):
per-node path; `none` when the node is not in the map; the tenancy name
alone when the node is the root or its parent id is null. -/
def build_2level_compartment_path (comp_id : String) (comp_map : List Comp)
    (tenancy_id tenancy_name sep : String) : Option String :=
  match comp_map.find? (fun c => c.id == comp_id) with
  | none => none
  | some comp =>
    if comp_id = tenancy_id then some tenancy_name
    else
      match comp.parent with
      | none => some tenancy_name
      | some p =>
        if p = tenancy_id then some (tenancy_name ++ sep ++ comp.name)
        else
          match comp_map.find? (fun d => d.id == p) with
          | none => some comp.name
          | some par => some (par.name ++ sep ++ comp.name)

/-- One row of `adb_inventory` (`adb_list.py`, CREATE TABLE lines 61-85;
the auto-increment surrogate `id` is omitted — the logical key is the
unique column `adb_ocid`). -/
structure AdbRow where
  tenancy_ocid : String
  region : String
  compartment_ocid : String
  compartment_name : String
  compartment_path : Option String
  adb_ocid : String
  display_name : String
  db_name : String
  workload : String
  lifecycle : String
  compute_type : String
  compute_count : Option Int
  storage_gb : Option Int
  auto_scaling : Int
  time_created_utc : Option Int
  last_refreshed_utc : Int
deriving DecidableEq, Repr

/-- One Autonomous Database summary object as consumed by
`upsert_adb_row` in `adb_list.py` (the attributes it reads). -/
structure AdbItem where
  id : String
  display_name : Option String
  db_name : Option String
  db_workload : Option String
  lifecycle_state : Option String
  compute_count : Option Int
  cpu_core_count : Option Int
  data_storage_size_in_tbs : Option Int
  is_auto_scaling_enabled : Bool
  time_created : Option Int
deriving DecidableEq, Repr

/-- The row dictionary built by `upsert_adb_row` (`adb_list.py` lines
209-247): ECPU/OCPU discrimination, TB-to-GB conversion, auto-scaling
flag, and the run timestamp as `last_refreshed_utc`. -/
def adb_row (adb : AdbItem) (comp : Comp) (comp_path : Option String)
    (run_ts : Int) (tenancy_id region : String) : AdbRow :=
  let ct : String × Option Int :=
    match adb.compute_count with
    | some ecpu => ("ECPU", some ecpu)
    | none =>
      match adb.cpu_core_count with
      | some ocpu => ("OCPU", some ocpu)
      | none => ("UNKNOWN", none)
  { tenancy_ocid := tenancy_id
    region := region
    compartment_ocid := comp.id
    compartment_name := comp.name
    compartment_path := comp_path
    adb_ocid := adb.id
    display_name := adb.display_name.getD ""
    db_name := adb.db_name.getD ""
    workload := adb.db_workload.getD "UNKNOWN"
    lifecycle := adb.lifecycle_state.getD "UNKNOWN"
    compute_type := ct.1
    compute_count := ct.2
    storage_gb := adb.data_storage_size_in_tbs.map (fun t => t * 1024)
    auto_scaling := if adb.is_auto_scaling_enabled then 1 else 0
    time_created_utc := adb.time_created
    last_refreshed_utc := run_ts }

/-- `UPSERT_SQL` of `adb_list.py` (lines 91-125): keyed by `adb_ocid`,
every other column is in the `ON DUPLICATE KEY UPDATE` list, so the merge
is a full replace. -/
def upsert_adb (v : AdbRow) (T : List AdbRow) : List AdbRow :=
  upsert_row (fun r => r.adb_ocid) (fun _ n => n) v T

/-- The `for adb in adbs` upsert loop in `adb_list.py` `main` (lines
297-299): upserts each item and adds its id to the seen-set. -/
def adb_upsert_loop (comp : Comp) (comp_path : Option String) (run_ts : Int)
    (tenancy_id region : String) :
    List AdbItem → List AdbRow → List String → List AdbRow × List String
  | [], T, seen => (T, seen)
  | adb :: rest, T, seen =>
    adb_upsert_loop comp comp_path run_ts tenancy_id region rest
      (upsert_adb (adb_row adb comp comp_path run_ts tenancy_id region) T)
      (seen ++ [adb.id])

/-- Result of one `adb_list.py` run: final table, seen-id set, and the
status of the `ServiceError` that aborted the run, if any. -/
structure AdbRunOut where
  table : List AdbRow
  seen : List String
  err : Option Nat
deriving DecidableEq, Repr

/-- The per-compartment collection loop of `adb_list.py` `main` (lines
279-311): one listing call per compartment (`u comp.id 1` — the code
performs a single attempt); empty results are skipped (`continue`), a 429
`ServiceError` sleeps and skips the compartment (`continue`), any other
`ServiceError` is raised and aborts the run. -/
def adb_collect (paths : List (String × String)) (tenancy_id region : String)
    (u : String → Nat → SvcRes (List AdbItem)) (run_ts : Int) :
    List Comp → List AdbRow → List String → AdbRunOut
  | [], T, seen => ⟨T, seen, none⟩
  | comp :: rest, T, seen =>
    match u comp.id 1 with
    | .ok adbs =>
      if adbs.isEmpty then
        adb_collect paths tenancy_id region u run_ts rest T seen
      else
        let p := adb_upsert_loop comp (List.lookup comp.id paths) run_ts
          tenancy_id region adbs T seen
        adb_collect paths tenancy_id region u run_ts rest p.1 p.2
    | .svcErr s =>
      if s = 429 then adb_collect paths tenancy_id region u run_ts rest T seen
      else ⟨T, seen, some s⟩

/-- The sweep of `adb_list.py` `main` (lines 314-334): with a non-empty
seen-set, `DELETE ... WHERE tenancy_ocid = %s AND region = %s AND adb_ocid
NOT IN (seen)`; with an empty seen-set, `DELETE ... WHERE tenancy_ocid =
%s AND region = %s`. -/
def adb_list_sweep (tenancy_id region : String) (seen : List String)
    (T : List AdbRow) : List AdbRow :=
  if seen = [] then
    T.filter (fun r => decide (¬(r.tenancy_ocid = tenancy_id ∧ r.region = region)))
  else
    T.filter (fun r =>
      decide (¬(r.tenancy_ocid = tenancy_id ∧ r.region = region ∧
        r.adb_ocid ∉ seen)))

/-- `main` of `adb_list.py` (lines 254-339): build paths, collect every
compartment, then sweep — unless collection aborted with a raised error,
in which case the table is left in its post-upsert state. -/
def adb_list_main (compartments : List Comp)
    (tenancy_id region tenancy_name : String)
    (u : String → Nat → SvcRes (List AdbItem)) (run_ts : Int)
    (T : List AdbRow) : AdbRunOut :=
  let comp_paths :=
    build_compartment_paths_adb compartments tenancy_id tenancy_name " > "
  let o := adb_collect comp_paths tenancy_id region u run_ts compartments T []
  match o.err with
  | none => ⟨adb_list_sweep tenancy_id region o.seen o.table, o.seen, none⟩
  | some s => ⟨o.table, o.seen, some s⟩

/-- The rows `adb_collect` upserts, in order (derived bookkeeping for the
normalization lemma; mirrors `adb_collect` case by case). -/
def adb_observed (paths : List (String × String)) (tenancy_id region : String)
    (u : String → Nat → SvcRes (List AdbItem)) (run_ts : Int) :
    List Comp → List AdbRow
  | [] => []
  | comp :: rest =>
    match u comp.id 1 with
    | .ok adbs =>
      if adbs.isEmpty then
        adb_observed paths tenancy_id region u run_ts rest
      else
        adbs.map (fun adb =>
          adb_row adb comp (List.lookup comp.id paths) run_ts tenancy_id region)
        ++ adb_observed paths tenancy_id region u run_ts rest
    | .svcErr s =>
      if s = 429 then adb_observed paths tenancy_id region u run_ts rest
      else []

/-- The error with which `adb_collect` stops, if any (derived bookkeeping
for the normalization lemma). -/
def adb_run_err (u : String → Nat → SvcRes (List AdbItem)) :
    List Comp → Option Nat
  | [] => none
  | comp :: rest =>
    match u comp.id 1 with
    | .ok _ => adb_run_err u rest
    | .svcErr s => if s = 429 then adb_run_err u rest else some s

/-- One row of `oci_instance_inventory` (`instance_list.py`, `init_schema`
lines 73-106; primary key `instance_id`). -/
structure InstRow where
  instance_id : String
  tenancy_ocid : String
  region : String
  compartment_id : String
  compartment_name : String
  compartment_path : Option String
  display_name : String
  shape : String
  ocpus : Option Int
  memory_gbs : Option Int
  lifecycle_state : String
  availability_domain : Option String
  primary_vnic_id : Option String
  private_ips : Option String
  public_ips : Option String
  time_created_utc : Option Int
  last_refreshed_utc : Int
deriving DecidableEq, Repr

/-- One instance summary object as consumed by the row dictionary in
`instance_list.py` `main` (lines 313-332). -/
structure InstItem where
  id : String
  display_name : String
  shape : String
  ocpus : Option Int
  memory_in_gbs : Option Int
  lifecycle_state : String
  availability_domain : Option String
  time_created : Option Int
deriving DecidableEq, Repr

/-- The row dictionary of `instance_list.py` `main` (lines 313-332); the
VNIC/IP triple is `get_vnic_and_ips`' result for the instance. -/
def instance_row (inst : InstItem) (comp_id comp_name : String)
    (comp_path : Option String) (tenancy_ocid region : String)
    (vnic : Option String × Option String × Option String)
    (run_ts : Int) : InstRow :=
  { instance_id := inst.id
    tenancy_ocid := tenancy_ocid
    region := region
    compartment_id := comp_id
    compartment_name := comp_name
    compartment_path := comp_path
    display_name := inst.display_name
    shape := inst.shape
    ocpus := inst.ocpus
    memory_gbs := inst.memory_in_gbs
    lifecycle_state := inst.lifecycle_state
    availability_domain := inst.availability_domain
    primary_vnic_id := vnic.1
    private_ips := vnic.2.1
    public_ips := vnic.2.2
    time_created_utc := inst.time_created
    last_refreshed_utc := run_ts }

/-- The merge induced by the `ON DUPLICATE KEY UPDATE` list of
`upsert_instance` (`instance_list.py` lines 237-250): every column is
taken from the new row except `instance_id`, `tenancy_ocid`, `region` and
`compartment_id`, which are absent from the update list and keep their
stored values. -/
def upsert_instance_merge (old new_ : InstRow) : InstRow :=
  { new_ with
    instance_id := old.instance_id
    tenancy_ocid := old.tenancy_ocid
    region := old.region
    compartment_id := old.compartment_id }

/-- `upsert_instance` of `instance_list.py` (lines 220-252). -/
def upsert_instance (v : InstRow) (T : List InstRow) : List InstRow :=
  upsert_row (fun r => r.instance_id) upsert_instance_merge v T

/-- The `for inst in instances` loop of `instance_list.py` `main`
(lines 310-338). -/
def instance_upsert_loop (comp : Comp) (comp_path : Option String)
    (tenancy_ocid region : String)
    (uVnic : String → Option String × Option String × Option String)
    (run_ts : Int) :
    List InstItem → List InstRow → List String → List InstRow × List String
  | [], T, seen => (T, seen)
  | inst :: rest, T, seen =>
    instance_upsert_loop comp comp_path tenancy_ocid region uVnic run_ts rest
      (upsert_instance
        (instance_row inst comp.id comp.name comp_path tenancy_ocid region
          (uVnic inst.id) run_ts) T)
      (seen ++ [inst.id])

/-- The per-compartment loop of `instance_list.py` `main` (lines 295-338).
`uInst` models `list_instances`, which swallows every exception and
returns an empty list, so collection itself never raises. -/
def instance_collect (paths : List (String × String))
    (tenancy_ocid region : String) (uInst : String → List InstItem)
    (uVnic : String → Option String × Option String × Option String)
    (run_ts : Int) :
    List Comp → List InstRow → List String → List InstRow × List String
  | [], T, seen => (T, seen)
  | comp :: rest, T, seen =>
    let instances := uInst comp.id
    if instances.isEmpty then
      instance_collect paths tenancy_ocid region uInst uVnic run_ts rest T seen
    else
      let p := instance_upsert_loop comp (List.lookup comp.id paths)
        tenancy_ocid region uVnic run_ts instances T seen
      instance_collect paths tenancy_ocid region uInst uVnic run_ts rest p.1 p.2

/-- The sweep of `instance_list.py` `main` (lines 341-361). -/
def instance_list_sweep (tenancy_ocid region : String) (seen : List String)
    (T : List InstRow) : List InstRow :=
  if seen = [] then
    T.filter (fun r =>
      decide (¬(r.tenancy_ocid = tenancy_ocid ∧ r.region = region)))
  else
    T.filter (fun r =>
      decide (¬(r.tenancy_ocid = tenancy_ocid ∧ r.region = region ∧
        r.instance_id ∉ seen)))

/-- `main` of `instance_list.py` (lines 258-366): path map over the full
compartment map (root included), collection over the ACTIVE non-root
compartments, then the sweep (collection never raises, so the sweep always
runs). -/
def instance_list_main (comp_map : List Comp) (tenancy_ocid region : String)
    (uInst : String → List InstItem)
    (uVnic : String → Option String × Option String × Option String)
    (run_ts : Int) (T : List InstRow) : List InstRow × List String :=
  let comp_paths := build_compartment_paths_instance comp_map tenancy_ocid " > "
  let active := comp_map.filter (fun c =>
    decide (c.id ≠ tenancy_ocid ∧ c.lifecycle.getD "ACTIVE" = "ACTIVE"))
  let p := instance_collect comp_paths tenancy_ocid region uInst uVnic run_ts
    active T []
  (instance_list_sweep tenancy_ocid region p.2 p.1, p.2)

/-- The rows `instance_collect` upserts, in order (derived bookkeeping for
the normalization lemma). -/
def instance_observed (paths : List (String × String))
    (tenancy_ocid region : String) (uInst : String → List InstItem)
    (uVnic : String → Option String × Option String × Option String)
    (run_ts : Int) : List Comp → List InstRow
  | [] => []
  | comp :: rest =>
    let instances := uInst comp.id
    if instances.isEmpty then
      instance_observed paths tenancy_ocid region uInst uVnic run_ts rest
    else
      instances.map (fun inst =>
        instance_row inst comp.id comp.name (List.lookup comp.id paths)
          tenancy_ocid region (uVnic inst.id) run_ts)
      ++ instance_observed paths tenancy_ocid region uInst uVnic run_ts rest

/-- One row of `dbcs_inventory` (`dbcs_list.py`, CREATE TABLE lines 58-87;
primary key `dbsystem_id`). -/
structure DbcsRow where
  dbsystem_id : String
  tenancy_ocid : String
  region : String
  compartment_ocid : String
  compartment_name : String
  compartment_path : Option String
  display_name : String
  db_home_count : Option Int
  db_name_list : Option String
  lifecycle_state : String
  shape : String
  cpu_core_count : Option Int
  storage_size_gb : Option Int
  node_count : Option Int
  license_model : Option String
  time_created_utc : Option Int
  last_refreshed_utc : Int
deriving DecidableEq, Repr

/-- The sweep of `dbcs_list.py` `main` (lines 340-360). -/
def dbcs_list_sweep (tenancy_ocid region : String) (seen : List String)
    (T : List DbcsRow) : List DbcsRow :=
  if seen = [] then
    T.filter (fun r =>
      decide (¬(r.tenancy_ocid = tenancy_ocid ∧ r.region = region)))
  else
    T.filter (fun r =>
      decide (¬(r.tenancy_ocid = tenancy_ocid ∧ r.region = region ∧
        r.dbsystem_id ∉ seen)))

/-- One row of `oci_lb_inventory` (`lb_list.py`, `init_schema` lines
77-106; primary key `lb_id`). -/
structure LbRow where
  lb_id : String
  tenancy_ocid : String
  region : String
  compartment_id : String
  compartment_name : Option String
  compartment_path : Option String
  display_name : String
  shape_name : String
  is_private : Int
  ip_mode : Option String
  lifecycle_state : String
  subnet_ids : Option String
  reserved_ips : Option String
  time_created_utc : Option Int
  last_refreshed_utc : Int
deriving DecidableEq, Repr

/-- The sweep of `lb_list.py` `main` (lines 322-342). -/
def lb_list_sweep (tenancy_ocid region : String) (seen : List String)
    (T : List LbRow) : List LbRow :=
  if seen = [] then
    T.filter (fun r =>
      decide (¬(r.tenancy_ocid = tenancy_ocid ∧ r.region = region)))
  else
    T.filter (fun r =>
      decide (¬(r.tenancy_ocid = tenancy_ocid ∧ r.region = region ∧
        r.lb_id ∉ seen)))

/-- One row of `oci_fss_filesystems` (`filesystem_list.py`, CREATE TABLE
lines 118-137; primary key `fs_id`; note the table has no tenancy or
region column). -/
structure FsRow where
  fs_id : String
  display_name : Option String
  compartment_id : Option String
  compartment_name : Option String
  compartment_path : Option String
  availability_domain : Option String
  lifecycle_state : Option String
  time_created : Option Int
  metered_bytes : Option Int
  latest_snapshot_id : Option String
  latest_snapshot_name : Option String
  latest_snapshot_state : Option String
  latest_snapshot_time : Option Int
  last_seen_at : Int
deriving DecidableEq, Repr

/-- One row of `oci_fss_snapshots` (`filesystem_list.py` lines 140-153). -/
structure SnapRow where
  snapshot_id : String
  fs_id : String
  name : Option String
  lifecycle_state : Option String
  time_created : Option Int
  time_ended : Option Int
  deleted_at : Option Int
  last_seen_at : Int
deriving DecidableEq, Repr

/-- One row of `oci_fss_mount_targets` (`filesystem_list.py` lines
156-171). -/
structure MtRow where
  mt_id : String
  display_name : Option String
  compartment_id : Option String
  compartment_path : Option String
  availability_domain : Option String
  lifecycle_state : Option String
  time_created : Option Int
  subnet_id : Option String
  export_set_id : Option String
  last_seen_at : Int
deriving DecidableEq, Repr

/-- One row of `oci_fss_exports` (`filesystem_list.py` lines 174-186). -/
structure ExportRow where
  export_id : String
  fs_id : String
  mt_id : String
  path : Option String
  lifecycle_state : Option String
  time_created : Option Int
  last_seen_at : Int
deriving DecidableEq, Repr

/-- FileSystem cleanup of `filesystem_list.py` (lines 509-521): with a
non-empty seen-set, `DELETE ... WHERE fs_id NOT IN (seen)`; with an empty
seen-set, `DELETE FROM oci_fss_filesystems` — the whole table. There is no
scope column in the `WHERE` clause. -/
def fss_filesystem_sweep (seen : List String) (T : List FsRow) : List FsRow :=
  if seen = [] then [] else T.filter (fun r => decide (r.fs_id ∈ seen))

/-- Snapshot cleanup of `filesystem_list.py` (lines 523-535). -/
def fss_snapshot_sweep (seen : List String) (T : List SnapRow) : List SnapRow :=
  if seen = [] then [] else T.filter (fun r => decide (r.snapshot_id ∈ seen))

/-- MountTarget cleanup of `filesystem_list.py` (lines 537-548). -/
def fss_mount_target_sweep (seen : List String) (T : List MtRow) : List MtRow :=
  if seen = [] then [] else T.filter (fun r => decide (r.mt_id ∈ seen))

/-- Export cleanup of `filesystem_list.py` (lines 550-561). -/
def fss_export_sweep (seen : List String) (T : List ExportRow) : List ExportRow :=
  if seen = [] then [] else T.filter (fun r => decide (r.export_id ∈ seen))

/-- One row of `adb_backup_status` (`adb_backup.py`, `ensure_table` lines
51-66; primary key `backup_id`; no tenancy, region or parent-ADB
column). -/
structure AdbBkRow where
  backup_id : String
  adb_name : String
  adb_status : String
  backup_status : Option String
  time_started : Option Int
  time_ended : Option Int
  created_at : Int
deriving DecidableEq, Repr

/-- One backup summary object as consumed by `save_backup_to_mysql`
(`adb_backup.py` lines 68-94). -/
structure AdbBkItem where
  id : String
  lifecycle_state : Option String
  time_started : Option Int
  time_ended : Option Int
deriving DecidableEq, Repr

/-- The row written by `save_backup_to_mysql` (`adb_backup.py` lines
68-94); `now` models the `datetime.utcnow()` taken at write time. -/
def save_backup_row (adb_name adb_status : String) (b : AdbBkItem)
    (now : Int) : AdbBkRow :=
  { backup_id := b.id
    adb_name := adb_name
    adb_status := adb_status
    backup_status := b.lifecycle_state
    time_started := b.time_started
    time_ended := b.time_ended
    created_at := now }

/-- The merge induced by the `ON DUPLICATE KEY UPDATE` list of
`save_backup_to_mysql` (`adb_backup.py` lines 75-80): it updates
`adb_status`, `backup_status`, `time_started`, `time_ended` and
`created_at`; the key `backup_id` and `adb_name` are absent from the
list and keep their stored values. -/
def adb_backup_merge (old new_ : AdbBkRow) : AdbBkRow :=
  { new_ with
    backup_id := old.backup_id
    adb_name := old.adb_name }

/-- The `for b in backups` loop of `adb_backup.py` (lines 163-167). -/
def adb_backup_upsert_loop (adb_name adb_status : String) (now : Int) :
    List AdbBkItem → List AdbBkRow → List String → List AdbBkRow × List String
  | [], T, seen => (T, seen)
  | b :: rest, T, seen =>
    adb_backup_upsert_loop adb_name adb_status now rest
      (upsert_row (fun r => r.backup_id) adb_backup_merge
        (save_backup_row adb_name adb_status b now) T)
      (seen ++ [b.id])

/-- The per-ADB collection loop of `adb_backup.py` (lines 148-172):
`get_adb_info` failure skips the ADB (`continue`); `get_all_backups`
failure also skips the ADB (`continue`); on success every backup is
upserted and added to the seen-set. `uInfo a` is `(lifecycle_state,
db_name)` of the ADB. -/
def adb_backup_collect (uInfo : String → Except Unit (String × String))
    (uBks : String → Except Unit (List AdbBkItem)) (now : Int) :
    List String → List AdbBkRow → List String → List AdbBkRow × List String
  | [], T, seen => (T, seen)
  | adb_id :: rest, T, seen =>
    match uInfo adb_id with
    | .error _ => adb_backup_collect uInfo uBks now rest T seen
    | .ok info =>
      match uBks adb_id with
      | .error _ => adb_backup_collect uInfo uBks now rest T seen
      | .ok backups =>
        let p := adb_backup_upsert_loop info.2 info.1 now backups T seen
        adb_backup_collect uInfo uBks now rest p.1 p.2

/-- The synchronization delete of `adb_backup.py` (lines 181-191): with a
non-empty seen-set, `DELETE FROM adb_backup_status WHERE backup_id NOT IN
(seen)` — no other column in the `WHERE` clause; with an empty seen-set
the delete is skipped entirely. -/
def adb_backup_sweep (seen : List String) (T : List AdbBkRow) : List AdbBkRow :=
  if seen = [] then T else T.filter (fun r => decide (r.backup_id ∈ seen))

/-- The `__main__` run of `adb_backup.py` (lines 110-198): collect every
configured ADB, then the global synchronization delete. -/
def adb_backup_main (adb_ocids : List String)
    (uInfo : String → Except Unit (String × String))
    (uBks : String → Except Unit (List AdbBkItem)) (now : Int)
    (T : List AdbBkRow) : List AdbBkRow × List String :=
  let p := adb_backup_collect uInfo uBks now adb_ocids T []
  (adb_backup_sweep p.2 p.1, p.2)

/-- One row of `dbcs_backup_status` (`dbcs_backup.py`,
`ensure_table_and_columns` lines 64-85; primary key `id`; no tenancy,
region or parent-database column; the generated `size_gb` column is
omitted as the code never writes it). -/
structure DbcsBkRow where
  id : String
  db_name : String
  type : Option String
  time_started : Option Int
  time_ended : Option Int
  lifecycle_state : Option String
  size_bytes : Option Int
  display_name : Option String
  freeform_tags : Option String
deriving DecidableEq, Repr

/-- One backup summary object as consumed by the row dictionary in
`dbcs_backup.py` `main` (lines 206-226). -/
structure DbcsBkItem where
  id : String
  type : Option String
  time_started : Option Int
  time_ended : Option Int
  lifecycle_state : Option String
  size_in_bytes : Option Int
  size_in_gbs : Option Int
  size_in_mbs : Option Int
  size_in_gigabytes : Option Int
  display_name : Option String
  freeform_tags : Option String
deriving DecidableEq, Repr

/-- `parse_size_fields` of `dbcs_backup.py` (lines 87-102): first present
attribute among `size_in_bytes`, `size_in_gbs`, `size_in_mbs`,
`size_in_gigabytes`, converted to bytes. -/
def parse_size_fields (b : DbcsBkItem) : Option Int :=
  match b.size_in_bytes with
  | some v => some v
  | none =>
    match b.size_in_gbs with
    | some v => some (v * 1024 ^ 3)
    | none =>
      match b.size_in_mbs with
      | some v => some (v * 1024 ^ 2)
      | none =>
        match b.size_in_gigabytes with
        | some v => some (v * 1024 ^ 3)
        | none => none

/-- The row dictionary of `dbcs_backup.py` `main` (lines 216-226). -/
def dbcs_backup_row (b : DbcsBkItem) (db_name : String) : DbcsBkRow :=
  { id := b.id
    db_name := db_name
    type := b.type
    time_started := b.time_started
    time_ended := b.time_ended
    lifecycle_state := b.lifecycle_state
    size_bytes := parse_size_fields b
    display_name := b.display_name
    freeform_tags := b.freeform_tags }

/-- The skip condition of `dbcs_backup.py` `main` (lines 207-209): a
backup is skipped when a lookback bound is configured, the backup has a
`time_started`, and that time is strictly before the bound. -/
def dbcs_backup_skip (lookback : Option Int) (b : DbcsBkItem) : Bool :=
  match lookback, b.time_started with
  | some lb, some ts => decide (ts < lb)
  | _, _ => false

/-- The `for b in backups` loop of `dbcs_backup.py` `main` (lines
206-235): out-of-window backups are skipped and not added to the
seen-set; the `ON DUPLICATE KEY UPDATE` of `upsert_backup` covers every
non-key column, so the merge is a full replace. -/
def dbcs_backup_upsert_loop (db_name : String) (lookback : Option Int) :
    List DbcsBkItem → List DbcsBkRow → List String →
    List DbcsBkRow × List String
  | [], T, seen => (T, seen)
  | b :: rest, T, seen =>
    if dbcs_backup_skip lookback b then
      dbcs_backup_upsert_loop db_name lookback rest T seen
    else
      dbcs_backup_upsert_loop db_name lookback rest
        (upsert_row (fun r => r.id) (fun _ n => n) (dbcs_backup_row b db_name) T)
        (seen ++ [b.id])

/-- The per-database loop of `dbcs_backup.py` `main` (lines 183-239):
name resolution falls back to the OCID on error; `uBks db` is the full
drained pagination of `list_backups` for that database. -/
def dbcs_backup_collect (uName : String → Except Unit String)
    (uBks : String → List DbcsBkItem) (lookback : Option Int) :
    List String → List DbcsBkRow → List String → List DbcsBkRow × List String
  | [], T, seen => (T, seen)
  | db_ocid :: rest, T, seen =>
    let db_name := match uName db_ocid with
      | .ok n => n
      | .error _ => db_ocid
    let p := dbcs_backup_upsert_loop db_name lookback (uBks db_ocid) T seen
    dbcs_backup_collect uName uBks lookback rest p.1 p.2

/-- The synchronization delete of `dbcs_backup.py` `main` (lines 247-257):
with a non-empty seen-set, `DELETE FROM dbcs_backup_status WHERE id NOT IN
(seen)` — no other column in the `WHERE` clause; with an empty seen-set
the delete is skipped. -/
def dbcs_backup_sweep (seen : List String) (T : List DbcsBkRow) :
    List DbcsBkRow :=
  if seen = [] then T else T.filter (fun r => decide (r.id ∈ seen))

/-- `main` of `dbcs_backup.py` (lines 143-264): collect every configured
database's backups within the lookback window, then the global
synchronization delete. -/
def dbcs_backup_main (db_ocids : List String)
    (uName : String → Except Unit String) (uBks : String → List DbcsBkItem)
    (lookback : Option Int) (T : List DbcsBkRow) :
    List DbcsBkRow × List String :=
  let p := dbcs_backup_collect uName uBks lookback db_ocids T []
  (dbcs_backup_sweep p.2 p.1, p.2)

/-- `LOOKBACK_DAYS` of `dbcs_backup.py` (line 50). -/
def LOOKBACK_DAYS : Int := 14

/-- The lookback bound computed in `dbcs_backup.py` `main` (lines
175-177): since `LOOKBACK_DAYS` is set, `lookback_ts = now -
timedelta(days=LOOKBACK_DAYS)` (time modelled in days). -/
def dbcs_lookback_ts (now : Int) : Option Int := some (now - LOOKBACK_DAYS)

/-- The in-window rows `dbcs_backup_collect` upserts, in order (derived
bookkeeping for the normalization lemma). -/
def dbcs_backup_observed (uName : String → Except Unit String)
    (uBks : String → List DbcsBkItem) (lookback : Option Int) :
    List String → List DbcsBkRow
  | [] => []
  | db_ocid :: rest =>
    let db_name := match uName db_ocid with
      | .ok n => n
      | .error _ => db_ocid
    (uBks db_ocid).filterMap (fun b =>
      if dbcs_backup_skip lookback b then none
      else some (dbcs_backup_row b db_name))
    ++ dbcs_backup_observed uName uBks lookback rest

/-- Snapshot page fetch handler of `filesystem_list.py` (lines 382-404):
404 is recovered as an empty snapshot list, 429 sleeps and proceeds with
an empty snapshot list, any other `ServiceError` is raised. -/
def fs_snapshot_fetch {α : Type} : SvcRes (List α) → Except Nat (List α)
  | .ok l => .ok l
  | .svcErr s => if s = 404 then .ok [] else if s = 429 then .ok [] else .error s

/-- Export list fetch handler of `filesystem_list.py` (lines 468-481):
429 sleeps and skips the mount target (`continue`, modelled as `ok
none`); every other `ServiceError` — including 404 — is raised. -/
def fs_export_fetch {α : Type} : SvcRes (List α) → Except Nat (Option (List α))
  | .ok l => .ok (some l)
  | .svcErr s => if s = 429 then .ok none else .error s

/-- `get_instance_info` call site of `instance_volume.py` (lines 357-366):
404 skips the instance (`continue`, modelled as `ok none`); any other
`ServiceError` is raised. The payload is `(display_name, compartment_id,
availability_domain)`. -/
def iv_get_instance_info (res : SvcRes (String × String × String)) :
    Except Nat (Option (String × String × String)) :=
  match res with
  | .ok v => .ok (some v)
  | .svcErr s => if s = 404 then .ok none else .error s

/-- `list_backups` of `instance_volume.py` (lines 120-158): a
`ServiceError` on the primary listing yields an empty list; when the
primary result is empty, the structured-search fallback result (whose own
`ServiceError`s are already folded into it) is used instead. -/
def iv_list_backups {α : Type} (primary : SvcRes (List α))
    (searchFallback : List α) : List α :=
  let backs := match primary with
    | .ok l => l
    | .svcErr _ => []
  if backs.isEmpty then searchFallback else backs

/-! Concrete inputs used by witness and counterexample theorems. -/

/-- A compartment used in concrete runs. -/
def cw_comp : Comp := ⟨"c1", "team", some "t", some "ACTIVE"⟩

/-- An ADB item with a given ocid, used in concrete runs. -/
def cw_adb (i : String) : AdbItem :=
  ⟨i, some "dn", some "db", some "OLTP", some "AVAILABLE", some 2, none,
   some 1, true, some 0⟩

/-- Mirror row as run 1 of the C1 scenario would have stored it. -/
def c1_row (i : String) : AdbRow :=
  adb_row (cw_adb i) cw_comp (some "acme > team") 1 "t" "r"

/-- Run-2 upstream of the C1 scenario: ids a and c only. -/
def c1_u : String → Nat → SvcRes (List AdbItem) :=
  fun _ _ => .ok [cw_adb "a", cw_adb "c"]

/-- Mirror table after run 1 of the C1 scenario: ids a, b, c. -/
def c1_T0 : List AdbRow := [c1_row "a", c1_row "b", c1_row "c"]

/-- Instance-list concrete inputs for the C1 witness. -/
def c1_iroot : Comp := ⟨"t", "acme", none, some "ACTIVE"⟩

/-- ACTIVE child compartment for the C1 instance witness. -/
def c1_icomp : Comp := ⟨"ci", "teami", some "t", some "ACTIVE"⟩

/-- Single instance observed in the C1 instance witness run. -/
def c1_iitem : InstItem :=
  ⟨"i1", "vm1", "VM.Standard3", some 2, some 16, "RUNNING", some "AD-1", some 0⟩

/-- Upstream instance listing for the C1 instance witness. -/
def c1_iu : String → List InstItem := fun cid => if cid = "ci" then [c1_iitem] else []

/-- VNIC resolution for the C1 instance witness. -/
def c1_ivnic : String → Option String × Option String × Option String :=
  fun _ => (some "vnic1", some "10.0.0.1", none)

/-- A stored row for instance i1 written under another region (r2): the
C1 counterexample's pre-run table. -/
def c1_bad : InstRow :=
  ⟨"i1", "t", "r2", "c9", "n9", none, "vm", "sh", none, none, "RUNNING",
   none, none, none, none, none, 1⟩

/-- A stored backup row predating the C2 counterexample run. -/
def c2_b1row : AdbBkRow :=
  ⟨"b1", "db1", "AVAILABLE", some "ACTIVE", some 100, some 200, 0⟩

/-- C2 counterexample: ADB info resolves fine. -/
def c2_uinfo : String → Except Unit (String × String) :=
  fun _ => .ok ("AVAILABLE", "db1")

/-- C2 counterexample: the backup listing genuinely returns zero items. -/
def c2_ubks : String → Except Unit (List AdbBkItem) := fun _ => .ok []

/-- A stored backup row of scope adb1, predating the C3 counterexample run. -/
def c3_b1row : AdbBkRow :=
  ⟨"b1", "db1", "AVAILABLE", some "ACTIVE", some 100, some 200, 0⟩

/-- C3 counterexample: both ADBs resolve their info. -/
def c3_uinfo : String → Except Unit (String × String) :=
  fun _ => .ok ("AVAILABLE", "db")

/-- One backup of adb2 observed in the C3 counterexample run. -/
def c3_bk2 : AdbBkItem := ⟨"b2", some "ACTIVE", some 10, some 20⟩

/-- C3 counterexample: collection fails for adb1, succeeds for adb2. -/
def c3_ubks : String → Except Unit (List AdbBkItem) :=
  fun a => if a = "adb1" then .error () else .ok [c3_bk2]

/-- The row the C3 counterexample run upserts for adb2's backup. -/
def c3_row2 : AdbBkRow := save_backup_row "db" "AVAILABLE" c3_bk2 0

/-- A compartment whose listing always fails with status 500. -/
def c3_u500 : String → Nat → SvcRes (List AdbItem) := fun _ _ => .svcErr 500

/-- A pre-existing adb_inventory row for the C3 witness. -/
def c3_arow : AdbRow :=
  ⟨"t", "r", "c1", "team", none, "a", "dn", "db", "OLTP", "AVAILABLE",
   "ECPU", some 2, some 1024, 1, some 0, 1⟩

/-- A stored dbcs backup row whose parent database is db1 (a scope not
configured in the C4 counterexample run). -/
def c4_b1 : DbcsBkRow :=
  ⟨"b1", "db1", some "FULL", some 100, some 200, some "ACTIVE", some 1000,
   some "bk1", none⟩

/-- The backup of db2 observed in the C4 counterexample run. -/
def c4_item : DbcsBkItem :=
  ⟨"b2", some "FULL", some 10, some 20, some "ACTIVE", some 5, none, none,
   none, some "bk2", none⟩

/-- C4 counterexample: db2's name resolves. -/
def c4_uname : String → Except Unit String := fun _ => .ok "db2"

/-- C4 counterexample: upstream backups of db2. -/
def c4_ubks : String → List DbcsBkItem := fun _ => [c4_item]

/-- The row the C4 counterexample run upserts for db2's backup. -/
def c4_row2 : DbcsBkRow := dbcs_backup_row c4_item "db2"

/-- An adb_inventory row in a different region, for the C4 witness. -/
def c4_other : AdbRow :=
  ⟨"t", "other-region", "c9", "team9", none, "z", "dn", "db", "OLTP",
   "AVAILABLE", "ECPU", some 2, some 1024, 1, some 0, 1⟩

/-- The ADB item that attempt 3 of the C5 upstream would return. -/
def c5_item : AdbItem :=
  ⟨"x1", some "dn", some "db", some "DW", some "AVAILABLE", none, some 4,
   some 2, false, some 0⟩

/-- C5 upstream: throttled (429) on attempts 1 and 2, success from
attempt 3 on. -/
def c5_u : String → Nat → SvcRes (List AdbItem) :=
  fun _ n => if n = 1 ∨ n = 2 then .svcErr 429 else .ok [c5_item]

/-- Stored instance row with compartment_id A (C6 counterexample). -/
def c6_old : InstRow :=
  ⟨"i1", "t", "r", "A", "compA", some "p", "vm", "shape", some 1, some 8,
   "RUNNING", some "AD", none, none, none, some 0, 1⟩

/-- Fresh record for the same instance, now in compartment B (C6
counterexample). -/
def c6_new : InstRow :=
  ⟨"i1", "t", "r", "B", "compB", some "p2", "vm", "shape2", some 2, some 16,
   "RUNNING", some "AD", none, none, none, some 0, 2⟩

/-- C6 witness upstream: one ADB, stable across runs. -/
def c6_u : String → Nat → SvcRes (List AdbItem) := fun _ _ => .ok [cw_adb "x"]

/-- Mirror table after run 1 of the C6 witness. -/
def c6_T1 : List AdbRow := (adb_list_main [cw_comp] "t" "r" "acme" c6_u 3 []).table

/-- Node with a null parent id (C7). -/
def c7_c1 : Comp := ⟨"c1", "teamA", none, none⟩

/-- Node whose parent is c1 (C7). -/
def c7_c2 : Comp := ⟨"c2", "sub1", some "c1", none⟩

/-- The tenancy root node, as `load_compartments_with_root` of
`instance_list.py` synthesizes it (C8). -/
def c8_root : Comp := ⟨"t", "acme", none, some "ACTIVE"⟩

/-- An in-window backup for the C10 witness (time_started 20, bound 10). -/
def c10_in : DbcsBkItem :=
  ⟨"bIn", some "FULL", some 20, some 21, some "ACTIVE", some 5, none, none,
   none, none, none⟩

/-- An out-of-window backup for the C10 witness (time_started 1 < 10). -/
def c10_out : DbcsBkItem :=
  ⟨"bOut", some "FULL", some 1, some 2, some "ACTIVE", some 5, none, none,
   none, none, none⟩

/-- C10 witness upstream: one database with one stale and one fresh
backup. -/
def c10_ubks : String → List DbcsBkItem := fun _ => [c10_out, c10_in]

/-- C10 witness name resolution. -/
def c10_uname : String → Except Unit String := fun _ => .ok "db"

/-- Stored row for the out-of-window backup, written by an earlier run. -/
def c10_oldrow : DbcsBkRow := dbcs_backup_row c10_out "db"

/-- An oci_instance_inventory row of a different region (frame witnesses). -/
def w_inst_other : InstRow :=
  ⟨"i9", "t", "r2", "c9", "n9", none, "vm", "sh", none, none, "RUNNING",
   none, none, none, none, none, 1⟩

/-- A dbcs_inventory row of a different region (frame witnesses). -/
def w_dbcs_other : DbcsRow :=
  ⟨"d9", "t", "r2", "c9", "n9", none, "disp", none, none, "AVAILABLE", "sh",
   none, none, none, none, none, 1⟩

/-- An oci_lb_inventory row of a different region (frame witnesses). -/
def w_lb_other : LbRow :=
  ⟨"l9", "t", "r2", "c9", none, none, "lb", "sh", 0, none, "ACTIVE", none,
   none, none, 1⟩

/-- An oci_fss_filesystems row (empty-seen sweep witnesses). -/
def w_fs_row : FsRow :=
  ⟨"f9", some "fs", none, none, none, none, some "ACTIVE", none, none, none,
   none, none, none, 1⟩

/-! Generic lemmas about `upsert_row` and `upsert_fold`. -/

/-- Provenance of a row in an upserted table: merged, freshly inserted, or
untouched with a different key. -/
theorem mem_upsert_row {α : Type} {key : α → String} {merge : α → α → α}
    {v : α} {T : List α} {r : α} (h : r ∈ upsert_row key merge v T) :
    (∃ old ∈ T, key old = key v ∧ r = merge old v) ∨ r = v ∨
      (r ∈ T ∧ key r ≠ key v) := by
  unfold upsert_row at h
  split at h
  · obtain ⟨s, hs, hmap⟩ := List.mem_map.mp h
    by_cases hk : key s = key v
    · rw [if_pos hk] at hmap
      exact Or.inl ⟨s, hs, hk, hmap.symm⟩
    · rw [if_neg hk] at hmap
      exact Or.inr (Or.inr ⟨hmap ▸ hs, hmap ▸ hk⟩)
  · rename_i hnex
    push_neg at hnex
    rcases List.mem_append.mp h with h1 | h2
    · exact Or.inr (Or.inr ⟨h1, hnex r h1⟩)
    · exact Or.inr (Or.inl (List.mem_singleton.mp h2))

/-- Upserting never loses a key already in the table. -/
theorem upsert_row_mem_of_mem {α : Type} {key : α → String} {merge : α → α → α}
    {v : α} {T : List α} {r : α}
    (hm : ∀ old, key old = key v → key (merge old v) = key v)
    (hr : r ∈ T) : ∃ r2 ∈ upsert_row key merge v T, key r2 = key r := by
  unfold upsert_row
  split
  · refine ⟨if key r = key v then merge r v else r, List.mem_map_of_mem _ hr, ?_⟩
    by_cases hk : key r = key v
    · rw [if_pos hk, hm r hk, hk]
    · rw [if_neg hk]
  · exact ⟨r, List.mem_append_left _ hr, rfl⟩

/-- Upserting puts the upserted key in the table. -/
theorem upsert_row_key_mem {α : Type} {key : α → String} {merge : α → α → α}
    (v : α) (T : List α)
    (hm : ∀ old, key old = key v → key (merge old v) = key v) :
    ∃ r2 ∈ upsert_row key merge v T, key r2 = key v := by
  unfold upsert_row
  split
  · rename_i hex
    obtain ⟨s, hs, hk⟩ := hex
    exact ⟨merge s v, List.mem_map.mpr ⟨s, hs, by rw [if_pos hk]⟩, hm s hk⟩
  · exact ⟨v, List.mem_append_right _ (List.mem_singleton_self v), rfl⟩

/-- After a full-replace upsert, every row holding the upserted key is the
upserted row. -/
theorem upsert_row_char {α : Type} {key : α → String} {v : α} {T : List α}
    {r : α} (h : r ∈ upsert_row key (fun _ n => n) v T)
    (hk : key r = key v) : r = v := by
  rcases mem_upsert_row h with ⟨old, _, _, rfl⟩ | rfl | ⟨_, hne⟩
  · rfl
  · rfl
  · exact absurd hk hne

/-- A full-replace upsert whose row is already stored verbatim changes
nothing. -/
theorem upsert_row_noop {α : Type} {key : α → String} {v : α} {T : List α}
    (hin : ∃ r ∈ T, key r = key v)
    (hall : ∀ r ∈ T, key r = key v → r = v) :
    upsert_row key (fun _ n => n) v T = T := by
  unfold upsert_row
  rw [if_pos hin]
  have hpt : ∀ r ∈ T, (if key r = key v then v else r) = id r := by
    intro r hr
    by_cases hk : key r = key v
    · rw [if_pos hk]
      exact (hall r hr hk).symm
    · rw [if_neg hk]
      rfl
  rw [List.map_congr_left hpt, List.map_id]

/-- Upserting the same record twice equals upserting it once, provided the
merge is stable (which both merge shapes in this repository are). -/
theorem upsert_row_idem {α : Type} {key : α → String} {merge : α → α → α}
    (v : α) (T : List α)
    (hm : ∀ old, key old = key v → key (merge old v) = key v)
    (hmm : ∀ old, key old = key v → merge (merge old v) v = merge old v)
    (hvv : merge v v = v) :
    upsert_row key merge v (upsert_row key merge v T) =
      upsert_row key merge v T := by
  have hex : ∃ r ∈ upsert_row key merge v T, key r = key v :=
    upsert_row_key_mem v T hm
  obtain ⟨r0, hr0, hk0⟩ := hex
  set U := upsert_row key merge v T with hU
  have hex2 : ∃ r ∈ U, key r = key v := ⟨r0, hr0, hk0⟩
  unfold upsert_row
  rw [if_pos hex2]
  have hpt : ∀ r ∈ U, (if key r = key v then merge r v else r) = id r := by
    intro r hr
    rcases mem_upsert_row (hU ▸ hr) with ⟨old, _, hko, rfl⟩ | rfl | ⟨_, hne⟩
    · rw [if_pos (hm old hko)]
      exact hmm old hko
    · rw [if_pos rfl]
      exact hvv
    · rw [if_neg hne]
      rfl
  rw [List.map_congr_left hpt, List.map_id]

/-- Folding upserts over a concatenation. -/
theorem upsert_fold_append {α : Type} (key : α → String) (merge : α → α → α)
    (a b : List α) (T : List α) :
    upsert_fold key merge (a ++ b) T =
      upsert_fold key merge b (upsert_fold key merge a T) := by
  induction a generalizing T with
  | nil => rfl
  | cons w rest ih => simp [upsert_fold, ih]

/-- Provenance through a full-replace upsert sequence: a final row is one
of the upserted rows, or an untouched original whose key never occurs. -/
theorem mem_upsert_fold {α : Type} {key : α → String} {rows T : List α}
    {r : α} (h : r ∈ upsert_fold key (fun _ n => n) rows T) :
    (∃ v ∈ rows, r = v) ∨ (r ∈ T ∧ key r ∉ rows.map key) := by
  induction rows generalizing T with
  | nil => exact Or.inr ⟨h, by simp⟩
  | cons w rest ih =>
    rcases ih h with ⟨v, hv, hev⟩ | ⟨hmem, hnk⟩
    · exact Or.inl ⟨v, List.mem_cons_of_mem _ hv, hev⟩
    · rcases mem_upsert_row hmem with ⟨old, _, _, hew⟩ | hew | ⟨hT, hne⟩
      · exact Or.inl ⟨w, List.mem_cons_self w rest, hew⟩
      · exact Or.inl ⟨w, List.mem_cons_self w rest, hew⟩
      · refine Or.inr ⟨hT, ?_⟩
        simp only [List.map_cons, List.mem_cons]
        rintro (hkw | hkr)
        · exact hne hkw
        · exact hnk hkr

/-- An upsert sequence never loses a key already in the table. -/
theorem upsert_fold_mem_of_mem {α : Type} {key : α → String}
    {merge : α → α → α} {rows T : List α} {r : α}
    (hm : ∀ v old : α, key old = key v → key (merge old v) = key v)
    (hr : r ∈ T) : ∃ r2 ∈ upsert_fold key merge rows T, key r2 = key r := by
  induction rows generalizing T r with
  | nil => exact ⟨r, hr, rfl⟩
  | cons w rest ih =>
    obtain ⟨r1, hr1, hk1⟩ := upsert_row_mem_of_mem (hm w) hr
    obtain ⟨r2, hr2, hk2⟩ := ih hr1
    exact ⟨r2, hr2, hk2.trans hk1⟩

/-- Every upserted row's key is present afterwards. -/
theorem upsert_fold_key_mem {α : Type} {key : α → String}
    {merge : α → α → α} {rows T : List α} {v : α}
    (hm : ∀ v old : α, key old = key v → key (merge old v) = key v)
    (hv : v ∈ rows) : ∃ r ∈ upsert_fold key merge rows T, key r = key v := by
  induction rows generalizing T with
  | nil => cases hv
  | cons w rest ih =>
    rcases List.mem_cons.mp hv with rfl | hv2
    · obtain ⟨r1, hr1, hk1⟩ := upsert_row_key_mem v T (hm v)
      obtain ⟨r2, hr2, hk2⟩ := upsert_fold_mem_of_mem hm hr1
      exact ⟨r2, hr2, hk2.trans hk1⟩
    · exact ih hv2

/-- Rows whose key is never upserted pass through untouched. -/
theorem upsert_fold_frame {α : Type} {key : α → String} {rows T : List α}
    {r : α} {i : String}
    (h : r ∈ upsert_fold key (fun _ n => n) rows T) (hk : key r = i)
    (hni : i ∉ rows.map key) : r ∈ T := by
  induction rows generalizing T with
  | nil => exact h
  | cons w rest ih =>
    simp only [List.map_cons, List.mem_cons, not_or] at hni
    have h2 : r ∈ upsert_row key (fun _ n => n) w T := ih h (by
      intro hx
      exact hni.2 hx)
    rcases mem_upsert_row h2 with ⟨old, _, _, hew⟩ | hew | ⟨hT, _⟩
    · exact absurd (hk ▸ hew ▸ rfl : i = key w) hni.1
    · exact absurd (hk ▸ hew ▸ rfl : i = key w) hni.1
    · exact hT

/-- With pairwise-distinct upserted keys, the final row at an upserted key
is exactly that upserted row. -/
theorem upsert_fold_char {α : Type} {key : α → String} {rows : List α}
    (hnd : (rows.map key).Nodup) {v : α} {T : List α} {r : α}
    (hv : v ∈ rows) (h : r ∈ upsert_fold key (fun _ n => n) rows T)
    (hk : key r = key v) : r = v := by
  induction rows generalizing T with
  | nil => cases hv
  | cons w rest ih =>
    simp only [List.map_cons, List.nodup_cons] at hnd
    rcases List.mem_cons.mp hv with rfl | hv2
    · have h2 : r ∈ upsert_row key (fun _ n => n) v T :=
        upsert_fold_frame h hk hnd.1
      exact upsert_row_char h2 hk
    · exact ih hnd.2 hv2 h

/-- A full-replace upsert sequence whose rows are already stored verbatim
changes nothing. -/
theorem upsert_fold_noop {α : Type} {key : α → String} {rows U : List α}
    (hp : ∀ v ∈ rows, (∃ r ∈ U, key r = key v) ∧
      (∀ r ∈ U, key r = key v → r = v)) :
    upsert_fold key (fun _ n => n) rows U = U := by
  induction rows with
  | nil => rfl
  | cons w rest ih =>
    have h1 := hp w (List.mem_cons_self w rest)
    show upsert_fold key _ rest (upsert_row key _ w U) = U
    rw [upsert_row_noop h1.1 h1.2]
    exact ih (fun v hv => hp v (List.mem_cons_of_mem _ hv))

/-- A property preserved by the merge, satisfied by all upserted rows and
all original rows, holds for every final row. -/
theorem upsert_fold_allP {α : Type} {key : α → String} {merge : α → α → α}
    {P : α → Prop} (hP : ∀ old new_, P old → P new_ → P (merge old new_))
    {rows T : List α} (hrows : ∀ v ∈ rows, P v) (hT : ∀ r ∈ T, P r) :
    ∀ r ∈ upsert_fold key merge rows T, P r := by
  induction rows generalizing T with
  | nil => exact hT
  | cons w rest ih =>
    apply ih (fun v hv => hrows v (List.mem_cons_of_mem _ hv))
    intro r hr
    rcases mem_upsert_row hr with ⟨old, hold, _, her⟩ | her | ⟨hmem, _⟩
    · exact her ▸ hP old w (hT old hold) (hrows w (List.mem_cons_self w rest))
    · exact her ▸ hrows w (List.mem_cons_self w rest)
    · exact hT r hmem

/-! Normalization of the adb_list run into an upsert sequence plus
bookkeeping. -/

/-- The inner upsert loop is the fold of full-replace upserts of the
built rows, with the item ids appended to the seen-set. -/
theorem adb_upsert_loop_norm (comp : Comp) (comp_path : Option String)
    (run_ts : Int) (tid reg : String) :
    ∀ (items : List AdbItem) (T : List AdbRow) (seen : List String),
    adb_upsert_loop comp comp_path run_ts tid reg items T seen =
      (upsert_fold (fun r => r.adb_ocid) (fun _ n => n)
        (items.map (fun adb => adb_row adb comp comp_path run_ts tid reg)) T,
       seen ++ items.map (fun adb => adb.id)) := by
  intro items
  induction items with
  | nil =>
    intro T seen
    simp [adb_upsert_loop, upsert_fold]
  | cons adb rest ih =>
    intro T seen
    simp [adb_upsert_loop, upsert_fold, upsert_adb, ih]

/-- The collection loop equals the fold of the observed rows, with the
observed ids as seen-set and the abort status from `adb_run_err`. -/
theorem adb_collect_norm (paths : List (String × String)) (tid reg : String)
    (u : String → Nat → SvcRes (List AdbItem)) (run_ts : Int) :
    ∀ (comps : List Comp) (T : List AdbRow) (seen : List String),
    adb_collect paths tid reg u run_ts comps T seen =
      ⟨upsert_fold (fun r => r.adb_ocid) (fun _ n => n)
          (adb_observed paths tid reg u run_ts comps) T,
        seen ++ (adb_observed paths tid reg u run_ts comps).map
          (fun r => r.adb_ocid),
        adb_run_err u comps⟩ := by
  intro comps
  induction comps with
  | nil =>
    intro T seen
    simp [adb_collect, adb_observed, adb_run_err, upsert_fold]
  | cons comp rest ih =>
    intro T seen
    simp only [adb_collect, adb_observed, adb_run_err]
    cases hu : u comp.id 1 with
    | ok adbs =>
      by_cases he : adbs.isEmpty
      · simp [he, ih]
      · simp only [he, if_false, Bool.false_eq_true]
        rw [adb_upsert_loop_norm, ih, upsert_fold_append]
        simp [List.map_map, List.map_append, Function.comp, adb_row]
    | svcErr s =>
      by_cases hs : s = 429
      · simp [hs, ih]
      · simp [hs, upsert_fold]

/-- Every observed row carries the run's tenancy and region. -/
theorem adb_observed_scope (paths : List (String × String)) (tid reg : String)
    (u : String → Nat → SvcRes (List AdbItem)) (run_ts : Int) :
    ∀ (comps : List Comp),
    ∀ r ∈ adb_observed paths tid reg u run_ts comps,
      r.tenancy_ocid = tid ∧ r.region = reg := by
  intro comps
  induction comps with
  | nil =>
    intro r hr
    simp [adb_observed] at hr
  | cons comp rest ih =>
    intro r hr
    simp only [adb_observed] at hr
    split at hr
    · split at hr
      · exact ih r hr
      · rcases List.mem_append.mp hr with h1 | h2
        · obtain ⟨adb, _, hea⟩ := List.mem_map.mp h1
          exact hea ▸ ⟨rfl, rfl⟩
        · exact ih r h2
    · split at hr
      · exact ih r hr
      · simp at hr

/-- Mark-and-sweep characterization for `adb_list`: after sweeping with the
observed ids, the ids present in the run's scope are exactly the observed
ids. -/
theorem adb_sweep_iff {tid reg : String} {obs T : List AdbRow}
    (hscope : ∀ r ∈ obs, r.tenancy_ocid = tid ∧ r.region = reg)
    (i : String) :
    (∃ r ∈ adb_list_sweep tid reg (obs.map (fun r => r.adb_ocid))
        (upsert_fold (fun r => r.adb_ocid) (fun _ n => n) obs T),
      r.tenancy_ocid = tid ∧ r.region = reg ∧ r.adb_ocid = i)
    ↔ i ∈ obs.map (fun r => r.adb_ocid) := by
  constructor
  · rintro ⟨r, hr, ht, hg, hk⟩
    unfold adb_list_sweep at hr
    split at hr
    · have := (List.mem_filter.mp hr).2
      simp only [decide_eq_true_eq] at this
      exact absurd ⟨ht, hg⟩ this
    · have := (List.mem_filter.mp hr).2
      simp only [decide_eq_true_eq] at this
      push_neg at this
      exact hk ▸ this ht hg
  · intro hi
    obtain ⟨v, hv, hkv⟩ := List.mem_map.mp hi
    have hm : ∀ (w old : AdbRow), old.adb_ocid = w.adb_ocid →
        ((fun (_ n : AdbRow) => n) old w).adb_ocid = w.adb_ocid :=
      fun _ _ _ => rfl
    obtain ⟨r, hr, hk⟩ :=
      upsert_fold_key_mem (T := T) hm hv
    have hscope_r : r.tenancy_ocid = tid ∧ r.region = reg := by
      rcases mem_upsert_fold hr with ⟨w, hw, hew⟩ | ⟨_, hnk⟩
      · exact hew ▸ hscope w hw
      · exact absurd (hk ▸ (hkv ▸ hi)) hnk
    refine ⟨r, ?_, hscope_r.1, hscope_r.2, hk.trans hkv⟩
    unfold adb_list_sweep
    rw [if_neg (List.ne_nil_of_mem hi)]
    refine List.mem_filter.mpr ⟨hr, ?_⟩
    simp only [decide_eq_true_eq]
    rintro ⟨_, _, hnot⟩
    exact hnot (by rw [hk, hkv]; exact hi)

/-- The instance upsert loop is the fold of merge-upserts of the built
rows, with the item ids appended to the seen-set. -/
theorem instance_upsert_loop_norm (comp : Comp) (comp_path : Option String)
    (tid reg : String)
    (uVnic : String → Option String × Option String × Option String)
    (run_ts : Int) :
    ∀ (items : List InstItem) (T : List InstRow) (seen : List String),
    instance_upsert_loop comp comp_path tid reg uVnic run_ts items T seen =
      (upsert_fold (fun r => r.instance_id) upsert_instance_merge
        (items.map (fun inst =>
          instance_row inst comp.id comp.name comp_path tid reg
            (uVnic inst.id) run_ts)) T,
       seen ++ items.map (fun inst => inst.id)) := by
  intro items
  induction items with
  | nil =>
    intro T seen
    simp [instance_upsert_loop, upsert_fold]
  | cons inst rest ih =>
    intro T seen
    simp [instance_upsert_loop, upsert_fold, upsert_instance, ih]

/-- The instance collection loop equals the fold of the observed rows. -/
theorem instance_collect_norm (paths : List (String × String))
    (tid reg : String) (uInst : String → List InstItem)
    (uVnic : String → Option String × Option String × Option String)
    (run_ts : Int) :
    ∀ (comps : List Comp) (T : List InstRow) (seen : List String),
    instance_collect paths tid reg uInst uVnic run_ts comps T seen =
      (upsert_fold (fun r => r.instance_id) upsert_instance_merge
        (instance_observed paths tid reg uInst uVnic run_ts comps) T,
       seen ++ (instance_observed paths tid reg uInst uVnic run_ts comps).map
         (fun r => r.instance_id)) := by
  intro comps
  induction comps with
  | nil =>
    intro T seen
    simp [instance_collect, instance_observed, upsert_fold]
  | cons comp rest ih =>
    intro T seen
    simp only [instance_collect, instance_observed]
    by_cases he : (uInst comp.id).isEmpty
    · simp [he, ih]
    · simp only [he, if_false, Bool.false_eq_true]
      rw [instance_upsert_loop_norm, ih, upsert_fold_append]
      simp [List.map_map, List.map_append, Function.comp, instance_row]

/-- Every observed instance row carries the run's tenancy and region. -/
theorem instance_observed_scope (paths : List (String × String))
    (tid reg : String) (uInst : String → List InstItem)
    (uVnic : String → Option String × Option String × Option String)
    (run_ts : Int) :
    ∀ (comps : List Comp),
    ∀ r ∈ instance_observed paths tid reg uInst uVnic run_ts comps,
      r.tenancy_ocid = tid ∧ r.region = reg := by
  intro comps
  induction comps with
  | nil =>
    intro r hr
    simp [instance_observed] at hr
  | cons comp rest ih =>
    intro r hr
    simp only [instance_observed] at hr
    split at hr
    · exact ih r hr
    · rcases List.mem_append.mp hr with h1 | h2
      · obtain ⟨inst, _, hei⟩ := List.mem_map.mp h1
        exact hei ▸ ⟨rfl, rfl⟩
      · exact ih r h2

/-- The instance merge keeps the stored key. -/
theorem instance_merge_key (v old : InstRow)
    (h : old.instance_id = v.instance_id) :
    (upsert_instance_merge old v).instance_id = v.instance_id := by
  simp [upsert_instance_merge, h]

/-- The instance merge keeps the stored tenancy and region. -/
theorem instance_merge_scope {tid reg : String} (old new_ : InstRow)
    (h1 : old.tenancy_ocid = tid ∧ old.region = reg)
    (h2 : new_.tenancy_ocid = tid ∧ new_.region = reg) :
    (upsert_instance_merge old new_).tenancy_ocid = tid ∧
      (upsert_instance_merge old new_).region = reg := by
  simp [upsert_instance_merge, h1.1, h1.2]

/-- A property of rows holding a fixed key, preserved by one upsert when
the merge keeps the stored key and preserves the property. -/
theorem upsert_row_keyP {α : Type} (key : α → String) (merge : α → α → α)
    {P : α → Prop} {i : String}
    (hmk : ∀ old new_, key (merge old new_) = key old)
    (hmP : ∀ old new_, P old → P (merge old new_))
    {v : α} {T : List α}
    (hv : key v = i → P v) (hT : ∀ r ∈ T, key r = i → P r) :
    ∀ r ∈ upsert_row key merge v T, key r = i → P r := by
  intro r hr hki
  rcases mem_upsert_row hr with ⟨old, hold, _, hev⟩ | hev | ⟨hmem, _⟩
  · have hkold : key old = i := by
      rw [← hmk old v, ← hev, hki]
    exact hev ▸ hmP old v (hT old hold hkold)
  · exact hev ▸ hv (hev ▸ hki)
  · exact hT r hmem hki

/-- A property of rows holding a fixed key, preserved by a whole upsert
sequence. -/
theorem upsert_fold_keyP {α : Type} (key : α → String) (merge : α → α → α)
    {P : α → Prop} {i : String}
    (hmk : ∀ old new_, key (merge old new_) = key old)
    (hmP : ∀ old new_, P old → P (merge old new_)) :
    ∀ (rows T : List α), (∀ v ∈ rows, key v = i → P v) →
      (∀ r ∈ T, key r = i → P r) →
      ∀ r ∈ upsert_fold key merge rows T, key r = i → P r := by
  intro rows
  induction rows with
  | nil => intro T _ hT; exact hT
  | cons w rest ih =>
    intro T hrows hT
    exact ih _ (fun v hv => hrows v (List.mem_cons_of_mem _ hv))
      (upsert_row_keyP key merge hmk hmP (hrows w (List.mem_cons_self w rest))
        hT)

/-- Mark-and-sweep characterization for `instance_list`, for a table
whose rows with an observed id already belong to the run's scope (the
minimal assumption: `upsert_instance`'s merge keeps the stored
tenancy/region, so a row of another scope keeps it even when its id is
observed). -/
theorem instance_sweep_iff {tid reg : String} {obs T : List InstRow}
    (hscope : ∀ r ∈ obs, r.tenancy_ocid = tid ∧ r.region = reg)
    (hT : ∀ r ∈ T,
      r.instance_id ∈ obs.map (fun r => r.instance_id) →
      r.tenancy_ocid = tid ∧ r.region = reg)
    (i : String) :
    (∃ r ∈ instance_list_sweep tid reg (obs.map (fun r => r.instance_id))
        (upsert_fold (fun r => r.instance_id) upsert_instance_merge obs T),
      r.tenancy_ocid = tid ∧ r.region = reg ∧ r.instance_id = i)
    ↔ i ∈ obs.map (fun r => r.instance_id) := by
  constructor
  · rintro ⟨r, hr, ht, hg, hk⟩
    unfold instance_list_sweep at hr
    split at hr
    · have := (List.mem_filter.mp hr).2
      simp only [decide_eq_true_eq] at this
      exact absurd ⟨ht, hg⟩ this
    · have := (List.mem_filter.mp hr).2
      simp only [decide_eq_true_eq] at this
      push_neg at this
      exact hk ▸ this ht hg
  · intro hi
    obtain ⟨v, hv, hkv⟩ := List.mem_map.mp hi
    have hm : ∀ (w old : InstRow), old.instance_id = w.instance_id →
        (upsert_instance_merge old w).instance_id = w.instance_id :=
      fun w old h => instance_merge_key w old h
    obtain ⟨r, hr, hk⟩ :=
      upsert_fold_key_mem (T := T) hm hv
    have hvk : v.instance_id ∈ obs.map (fun r => r.instance_id) :=
      List.mem_map_of_mem _ hv
    have hscope_r : r.tenancy_ocid = tid ∧ r.region = reg :=
      upsert_fold_keyP (fun r : InstRow => r.instance_id)
        upsert_instance_merge
        (P := fun r => r.tenancy_ocid = tid ∧ r.region = reg)
        (i := v.instance_id) (fun _ _ => rfl) (fun _ _ h => ⟨h.1, h.2⟩)
        obs T (fun w hw _ => hscope w hw)
        (fun r2 hr2 hk2 => hT r2 hr2 (by
          rw [show r2.instance_id = v.instance_id from hk2]
          exact hvk))
        r hr hk
    refine ⟨r, ?_, hscope_r.1, hscope_r.2, hk.trans hkv⟩
    unfold instance_list_sweep
    rw [if_neg (List.ne_nil_of_mem hi)]
    refine List.mem_filter.mpr ⟨hr, ?_⟩
    simp only [decide_eq_true_eq]
    rintro ⟨_, _, hnot⟩
    exact hnot (by rw [hk, hkv]; exact hi)

/-- C1 counterexample: the claim's set-equality fails on
`instance_list.py` as stated. Its `ON DUPLICATE KEY UPDATE` list omits
`tenancy_ocid` and `region`, so a row for instance i1 stored under
another region (r2) keeps that scope when i1 is observed by a run of
scope (t, r); the scoped sweep then leaves it: after the run, i1 is in
the seen-set but no row with scope (t, r) and id i1 exists. -/
theorem claim_C1_counterexample :
    "i1" ∈ (instance_list_main [c1_iroot, c1_icomp] "t" "r" c1_iu c1_ivnic 2
        [c1_bad]).2 ∧
    ¬ ∃ r ∈ (instance_list_main [c1_iroot, c1_icomp] "t" "r" c1_iu c1_ivnic 2
        [c1_bad]).1,
      r.tenancy_ocid = "t" ∧ r.region = "r" ∧ r.instance_id = "i1" := by
  decide

/-- C1 amended: after a synchronization run in which collection completed
without error, the set of resource ids present in the mirror table for
the run's scope equals exactly the set of ids returned by the upstream
listing during that run. This holds unconditionally for `adb_list.py`,
whose upsert rewrites every column including the scope columns (first
conjunct); for `instance_list.py`, whose `ON DUPLICATE KEY UPDATE` omits
`tenancy_ocid` and `region`, it holds provided every pre-run row whose id
is in the run's seen-set already carries the run's tenancy and region —
an observed id stored under another scope stays in the seen-set but
outside the run's scope (second conjunct). -/
theorem claim_C1_mark_and_sweep_amended :
    (∀ (compartments : List Comp) (tid reg tname : String)
       (u : String → Nat → SvcRes (List AdbItem)) (run_ts : Int)
       (T : List AdbRow),
       (adb_list_main compartments tid reg tname u run_ts T).err = none →
       ∀ i : String,
         (∃ r ∈ (adb_list_main compartments tid reg tname u run_ts T).table,
            r.tenancy_ocid = tid ∧ r.region = reg ∧ r.adb_ocid = i)
         ↔ i ∈ (adb_list_main compartments tid reg tname u run_ts T).seen)
    ∧
    (∀ (comp_map : List Comp) (tid reg : String)
       (uInst : String → List InstItem)
       (uVnic : String → Option String × Option String × Option String)
       (run_ts : Int) (T : List InstRow),
       (∀ r ∈ T,
         r.instance_id ∈
           (instance_list_main comp_map tid reg uInst uVnic run_ts T).2 →
         r.tenancy_ocid = tid ∧ r.region = reg) →
       ∀ i : String,
         (∃ r ∈ (instance_list_main comp_map tid reg uInst uVnic run_ts T).1,
            r.tenancy_ocid = tid ∧ r.region = reg ∧ r.instance_id = i)
         ↔ i ∈ (instance_list_main comp_map tid reg uInst uVnic run_ts T).2) := by
  constructor
  · intro compartments tid reg tname u run_ts T h i
    cases herr : adb_run_err u compartments with
    | some s =>
      exfalso
      simp [adb_list_main, adb_collect_norm, herr] at h
    | none =>
      simp only [adb_list_main, adb_collect_norm, herr, List.nil_append]
      exact adb_sweep_iff
        (adb_observed_scope
          (build_compartment_paths_adb compartments tid tname " > ")
          tid reg u run_ts compartments) i
  · intro comp_map tid reg uInst uVnic run_ts T hT i
    simp only [instance_list_main, instance_collect_norm, List.nil_append]
      at hT ⊢
    exact instance_sweep_iff
      (instance_observed_scope
        (build_compartment_paths_instance comp_map tid " > ")
        tid reg uInst uVnic run_ts
        (comp_map.filter (fun c =>
          decide (c.id ≠ tid ∧ c.lifecycle.getD "ACTIVE" = "ACTIVE"))))
      hT i

/-- Witness for the amended C1, instantiating the spec's scenario: run 1
stored ids a, b, c for scope (t, r); run 2 observes only a and c; after
run 2 the table holds a (and c) for the scope and row b is gone. The
instance-list conjunct is instantiated on a one-instance run from an
empty table. -/
theorem claim_C1_mark_and_sweep_amended_witness :
    (∃ r ∈ (adb_list_main [cw_comp] "t" "r" "acme" c1_u 2 c1_T0).table,
       r.tenancy_ocid = "t" ∧ r.region = "r" ∧ r.adb_ocid = "a") ∧
    (¬ ∃ r ∈ (adb_list_main [cw_comp] "t" "r" "acme" c1_u 2 c1_T0).table,
       r.tenancy_ocid = "t" ∧ r.region = "r" ∧ r.adb_ocid = "b") ∧
    (∃ r ∈ (instance_list_main [c1_iroot, c1_icomp] "t" "r" c1_iu c1_ivnic 2
        []).1,
       r.tenancy_ocid = "t" ∧ r.region = "r" ∧ r.instance_id = "i1") := by
  refine ⟨?_, ?_, ?_⟩
  · exact (claim_C1_mark_and_sweep_amended.1 [cw_comp] "t" "r" "acme" c1_u 2
      c1_T0 (by decide) "a").mpr (by decide)
  · intro hb
    exact absurd ((claim_C1_mark_and_sweep_amended.1 [cw_comp] "t" "r" "acme"
      c1_u 2 c1_T0 (by decide) "b").mp hb) (by decide)
  · exact (claim_C1_mark_and_sweep_amended.2 [c1_iroot, c1_icomp] "t" "r"
      c1_iu c1_ivnic 2 [] (by decide) "i1").mpr (by decide)

/-- C2 counterexample: the claim asserts the empty-result wipe for every
synchronizer script, but `adb_backup.py` skips its synchronization delete
when the seen-set is empty (lines 190-191). Here the single configured
ADB's listing genuinely returns zero backups, collection completes without
error, and the pre-existing row survives the run. -/
theorem claim_C2_counterexample :
    adb_backup_main ["adb1"] c2_uinfo c2_ubks 0 [c2_b1row] =
      ([c2_b1row], []) ∧ ([c2_b1row] : List AdbBkRow) ≠ [] := by
  decide

/-- C2 amended: with an empty seen-set, the sweeps of `adb_list.py`,
`instance_list.py`, `dbcs_list.py` and `lb_list.py` delete every row of
the run's tenancy/region scope, and the four cleanups of
`filesystem_list.py` delete every row of their tables; but the
synchronization deletes of `adb_backup.py` and `dbcs_backup.py` are
skipped entirely, leaving their tables unchanged. -/
theorem claim_C2_empty_result_wipes_scope_amended :
    (∀ (tid reg : String) (T : List AdbRow),
       ∀ r ∈ adb_list_sweep tid reg [] T,
         ¬(r.tenancy_ocid = tid ∧ r.region = reg)) ∧
    (∀ (tid reg : String) (T : List InstRow),
       ∀ r ∈ instance_list_sweep tid reg [] T,
         ¬(r.tenancy_ocid = tid ∧ r.region = reg)) ∧
    (∀ (tid reg : String) (T : List DbcsRow),
       ∀ r ∈ dbcs_list_sweep tid reg [] T,
         ¬(r.tenancy_ocid = tid ∧ r.region = reg)) ∧
    (∀ (tid reg : String) (T : List LbRow),
       ∀ r ∈ lb_list_sweep tid reg [] T,
         ¬(r.tenancy_ocid = tid ∧ r.region = reg)) ∧
    (∀ T : List FsRow, fss_filesystem_sweep [] T = []) ∧
    (∀ T : List SnapRow, fss_snapshot_sweep [] T = []) ∧
    (∀ T : List MtRow, fss_mount_target_sweep [] T = []) ∧
    (∀ T : List ExportRow, fss_export_sweep [] T = []) ∧
    (∀ T : List AdbBkRow, adb_backup_sweep [] T = T) ∧
    (∀ T : List DbcsBkRow, dbcs_backup_sweep [] T = T) := by
  refine ⟨?_, ?_, ?_, ?_, ?_, ?_, ?_, ?_, ?_, ?_⟩
  · intro tid reg T r hr
    unfold adb_list_sweep at hr
    rw [if_pos rfl] at hr
    have h2f := (List.mem_filter.mp hr).2
    simp only [decide_eq_true_eq] at h2f
    exact h2f
  · intro tid reg T r hr
    unfold instance_list_sweep at hr
    rw [if_pos rfl] at hr
    have h2f := (List.mem_filter.mp hr).2
    simp only [decide_eq_true_eq] at h2f
    exact h2f
  · intro tid reg T r hr
    unfold dbcs_list_sweep at hr
    rw [if_pos rfl] at hr
    have h2f := (List.mem_filter.mp hr).2
    simp only [decide_eq_true_eq] at h2f
    exact h2f
  · intro tid reg T r hr
    unfold lb_list_sweep at hr
    rw [if_pos rfl] at hr
    have h2f := (List.mem_filter.mp hr).2
    simp only [decide_eq_true_eq] at h2f
    exact h2f
  · intro T
    simp [fss_filesystem_sweep]
  · intro T
    simp [fss_snapshot_sweep]
  · intro T
    simp [fss_mount_target_sweep]
  · intro T
    simp [fss_export_sweep]
  · intro T
    simp [adb_backup_sweep]
  · intro T
    simp [dbcs_backup_sweep]

/-- Witness for the amended C2, applying the adb_list conjunct to a row of
another region that survives the empty-seen sweep of scope (t, r). -/
theorem claim_C2_empty_result_wipes_scope_amended_witness :
    ¬(c4_other.tenancy_ocid = "t" ∧ c4_other.region = "r") :=
  claim_C2_empty_result_wipes_scope_amended.1 "t" "r" [c4_other] c4_other
    (by decide)

/-- C3 counterexample: the claim asserts that a scope whose collection
fails keeps at least all its pre-run rows. In `adb_backup.py`, collection
for adb1 fails (`get_all_backups` raises, the loop logs and continues),
adb2 contributes backup b2, and the final global sweep — which has no
scope column — deletes adb1's stored row b1. -/
theorem claim_C3_counterexample :
    adb_backup_main ["adb1", "adb2"] c3_uinfo c3_ubks 0 [c3_b1row] =
      ([c3_row2], ["b2"]) ∧ c3_b1row ∉ ([c3_row2] : List AdbBkRow) := by
  decide

/-- C3 amended: in `adb_list.py` (likewise `dbcs_list.py`), a
non-throttling collection error aborts the run before any sweep, so every
pre-run row still has a row with its id in the table the process leaves
behind (first conjunct). In `adb_backup.py`, a failed ADB is merely
skipped and the final sweep still runs globally: whenever the seen-set is
non-empty, only rows whose id was observed survive — the failed scope's
rows are deleted (second conjunct). -/
theorem claim_C3_partial_failure_amended :
    (∀ (compartments : List Comp) (tid reg tname : String)
       (u : String → Nat → SvcRes (List AdbItem)) (run_ts : Int)
       (T : List AdbRow) (s : Nat),
       (adb_list_main compartments tid reg tname u run_ts T).err = some s →
       ∀ r ∈ T,
         ∃ r2 ∈ (adb_list_main compartments tid reg tname u run_ts T).table,
           r2.adb_ocid = r.adb_ocid) ∧
    (∀ (cfg : List String) (uInfo : String → Except Unit (String × String))
       (uBks : String → Except Unit (List AdbBkItem)) (now : Int)
       (T : List AdbBkRow),
       (adb_backup_main cfg uInfo uBks now T).2 ≠ [] →
       ∀ r ∈ (adb_backup_main cfg uInfo uBks now T).1,
         r.backup_id ∈ (adb_backup_main cfg uInfo uBks now T).2) := by
  constructor
  · intro compartments tid reg tname u run_ts T s h r hr
    cases herr : adb_run_err u compartments with
    | none =>
      exfalso
      simp [adb_list_main, adb_collect_norm, herr] at h
    | some s0 =>
      simp only [adb_list_main, adb_collect_norm, herr]
      exact upsert_fold_mem_of_mem (fun _ _ _ => rfl) hr
  · intro cfg uInfo uBks now T hne r hr
    simp only [adb_backup_main] at hne hr ⊢
    unfold adb_backup_sweep at hr
    rw [if_neg hne] at hr
    have h2f := (List.mem_filter.mp hr).2
    simp only [decide_eq_true_eq] at h2f
    exact h2f

/-- Witness for the amended C3: a run aborted by a 500 error keeps the
pre-existing row's id (first conjunct applied concretely), and the
adb_backup sweep after a partial failure keeps exactly the observed id
(second conjunct applied concretely). -/
theorem claim_C3_partial_failure_amended_witness :
    (∃ r2 ∈ (adb_list_main [cw_comp] "t" "r" "acme" c3_u500 2
        [c3_arow]).table, r2.adb_ocid = c3_arow.adb_ocid) ∧
    c3_row2.backup_id ∈
      (adb_backup_main ["adb1", "adb2"] c3_uinfo c3_ubks 0 [c3_b1row]).2 := by
  constructor
  · exact claim_C3_partial_failure_amended.1 [cw_comp] "t" "r" "acme" c3_u500
      2 [c3_arow] 500 (by decide) c3_arow (by decide)
  · exact claim_C3_partial_failure_amended.2 ["adb1", "adb2"] c3_uinfo c3_ubks
      0 [c3_b1row] (by decide) c3_row2 (by decide)

/-- C4 counterexample: the claim asserts every sweep's DELETE matches on
every scope-defining column. The `dbcs_backup.py` sweep filters on `id`
alone: a run configured only for database db2 deletes the stored backup
b1 of a different parent database db1 (and would equally delete rows of
another tenancy or region, the table having no such columns). -/
theorem claim_C4_counterexample :
    dbcs_backup_main ["db2ocid"] c4_uname c4_ubks none [c4_b1] =
      ([c4_row2], ["b2"]) ∧
    c4_b1 ∉ ([c4_row2] : List DbcsBkRow) ∧ c4_b1.db_name = "db1" := by
  decide

/-- C4 amended: the inventory sweeps of `adb_list.py`, `instance_list.py`,
`dbcs_list.py` and `lb_list.py` match tenancy and region by exact
equality, so a row of a different scope always survives the sweep
untouched; but the sweeps of `adb_backup.py`, `dbcs_backup.py` and the
four cleanups of `filesystem_list.py` filter on the id alone (their
tables have no scope columns), so rows written for another tenancy,
region or parent resource can be deleted. -/
theorem claim_C4_sweep_scope_framing_amended :
    (∀ (tid reg : String) (seen : List String) (T : List AdbRow),
       ∀ r ∈ T, ¬(r.tenancy_ocid = tid ∧ r.region = reg) →
         r ∈ adb_list_sweep tid reg seen T) ∧
    (∀ (tid reg : String) (seen : List String) (T : List InstRow),
       ∀ r ∈ T, ¬(r.tenancy_ocid = tid ∧ r.region = reg) →
         r ∈ instance_list_sweep tid reg seen T) ∧
    (∀ (tid reg : String) (seen : List String) (T : List DbcsRow),
       ∀ r ∈ T, ¬(r.tenancy_ocid = tid ∧ r.region = reg) →
         r ∈ dbcs_list_sweep tid reg seen T) ∧
    (∀ (tid reg : String) (seen : List String) (T : List LbRow),
       ∀ r ∈ T, ¬(r.tenancy_ocid = tid ∧ r.region = reg) →
         r ∈ lb_list_sweep tid reg seen T) := by
  refine ⟨?_, ?_, ?_, ?_⟩
  · intro tid reg seen T r hr hs
    unfold adb_list_sweep
    split
    · exact List.mem_filter.mpr ⟨hr, by simp only [decide_eq_true_eq]; exact hs⟩
    · refine List.mem_filter.mpr ⟨hr, ?_⟩
      simp only [decide_eq_true_eq]
      rintro ⟨h1, h2, _⟩
      exact hs ⟨h1, h2⟩
  · intro tid reg seen T r hr hs
    unfold instance_list_sweep
    split
    · exact List.mem_filter.mpr ⟨hr, by simp only [decide_eq_true_eq]; exact hs⟩
    · refine List.mem_filter.mpr ⟨hr, ?_⟩
      simp only [decide_eq_true_eq]
      rintro ⟨h1, h2, _⟩
      exact hs ⟨h1, h2⟩
  · intro tid reg seen T r hr hs
    unfold dbcs_list_sweep
    split
    · exact List.mem_filter.mpr ⟨hr, by simp only [decide_eq_true_eq]; exact hs⟩
    · refine List.mem_filter.mpr ⟨hr, ?_⟩
      simp only [decide_eq_true_eq]
      rintro ⟨h1, h2, _⟩
      exact hs ⟨h1, h2⟩
  · intro tid reg seen T r hr hs
    unfold lb_list_sweep
    split
    · exact List.mem_filter.mpr ⟨hr, by simp only [decide_eq_true_eq]; exact hs⟩
    · refine List.mem_filter.mpr ⟨hr, ?_⟩
      simp only [decide_eq_true_eq]
      rintro ⟨h1, h2, _⟩
      exact hs ⟨h1, h2⟩

/-- Witness for the amended C4: rows of region r2 survive sweeps of scope
(t, r) in all four inventory tables. -/
theorem claim_C4_sweep_scope_framing_amended_witness :
    c4_other ∈ adb_list_sweep "t" "r" ["z2"] [c4_other] ∧
    w_inst_other ∈ instance_list_sweep "t" "r" ["i2"] [w_inst_other] ∧
    w_dbcs_other ∈ dbcs_list_sweep "t" "r" ["d2"] [w_dbcs_other] ∧
    w_lb_other ∈ lb_list_sweep "t" "r" ["l2"] [w_lb_other] := by
  refine ⟨?_, ?_, ?_, ?_⟩
  · exact claim_C4_sweep_scope_framing_amended.1 "t" "r" ["z2"] [c4_other]
      c4_other (by decide) (by decide)
  · exact claim_C4_sweep_scope_framing_amended.2.1 "t" "r" ["i2"]
      [w_inst_other] w_inst_other (by decide) (by decide)
  · exact claim_C4_sweep_scope_framing_amended.2.2.1 "t" "r" ["d2"]
      [w_dbcs_other] w_dbcs_other (by decide) (by decide)
  · exact claim_C4_sweep_scope_framing_amended.2.2.2 "t" "r" ["l2"]
      [w_lb_other] w_lb_other (by decide) (by decide)

/-- C5 counterexample: the claim asserts bounded retry of the same
operation, success if attempt 3 succeeds, and ThrottleExceeded on
exhaustion. With an upstream that is throttled on attempts 1-2 and would
succeed from attempt 3, `adb_list.py` performs a single call, sleeps,
skips the compartment (`continue`) and finishes with no error and an
empty seen-set: the attempt-3 success result is never obtained, and no
ThrottleExceeded-style failure exists anywhere in the code. -/
theorem claim_C5_counterexample :
    c5_u "c1" 1 = SvcRes.svcErr 429 ∧ c5_u "c1" 2 = SvcRes.svcErr 429 ∧
    c5_u "c1" 3 = SvcRes.ok [c5_item] ∧
    adb_list_main [cw_comp] "t" "r" "acme" c5_u 0 [] =
      ⟨[], [], none⟩ := by
  decide

/-- C5 amended: on a throttling (429) `ServiceError` the collection loop
of `adb_list.py` (and identically `dbcs_list.py`) sleeps once and skips
the current compartment, never retrying it during the run and never
surfacing an error; any non-429 `ServiceError` propagates immediately and
aborts the collection with that status. -/
theorem claim_C5_throttle_skip_amended :
    (∀ (paths : List (String × String)) (tid reg : String)
       (u : String → Nat → SvcRes (List AdbItem)) (run_ts : Int)
       (comp : Comp) (rest : List Comp) (T : List AdbRow)
       (seen : List String),
       u comp.id 1 = SvcRes.svcErr 429 →
       adb_collect paths tid reg u run_ts (comp :: rest) T seen =
         adb_collect paths tid reg u run_ts rest T seen) ∧
    (∀ (paths : List (String × String)) (tid reg : String)
       (u : String → Nat → SvcRes (List AdbItem)) (run_ts : Int)
       (comp : Comp) (rest : List Comp) (T : List AdbRow)
       (seen : List String) (s : Nat),
       u comp.id 1 = SvcRes.svcErr s → s ≠ 429 →
       adb_collect paths tid reg u run_ts (comp :: rest) T seen =
         ⟨T, seen, some s⟩) := by
  constructor
  · intro paths tid reg u run_ts comp rest T seen h
    simp [adb_collect, h]
  · intro paths tid reg u run_ts comp rest T seen s h hs
    simp [adb_collect, h, hs]

/-- Witness for the amended C5: a throttled compartment is skipped with no
retry, and a 500 error aborts the collection immediately. -/
theorem claim_C5_throttle_skip_amended_witness :
    (adb_collect [] "t" "r" c5_u 0 [cw_comp] [] [] =
      adb_collect [] "t" "r" c5_u 0 [] [] []) ∧
    adb_collect [] "t" "r" c3_u500 0 [cw_comp] [] [] = ⟨[], [], some 500⟩ := by
  constructor
  · exact claim_C5_throttle_skip_amended.1 [] "t" "r" c5_u 0 cw_comp [] [] []
      (by decide)
  · exact claim_C5_throttle_skip_amended.2 [] "t" "r" c3_u500 0 cw_comp [] []
      [] 500 (by decide) (by decide)

/-- A full-replace upsert puts the upserted row itself in the table. -/
theorem upsert_row_self_mem {α : Type} {key : α → String} (v : α)
    (T : List α) : v ∈ upsert_row key (fun _ n => n) v T := by
  unfold upsert_row
  split
  · rename_i hex
    obtain ⟨s, hs, hk⟩ := hex
    exact List.mem_map.mpr ⟨s, hs, by rw [if_pos hk]⟩
  · exact List.mem_append_right _ (List.mem_singleton_self v)

/-- The adb_list sweep is idempotent (both of its branches are filters
with a fixed predicate). -/
theorem adb_list_sweep_idem (tid reg : String) (seen : List String)
    (T : List AdbRow) :
    adb_list_sweep tid reg seen (adb_list_sweep tid reg seen T) =
      adb_list_sweep tid reg seen T := by
  unfold adb_list_sweep
  split
  · simp [List.filter_filter]
  · simp [List.filter_filter]

/-- C6 amended: the `adb_list.py` upsert is a full replace — after
upserting a record every row holding its key equals the freshly built row
(every column, with `last_refreshed_utc` set to the run timestamp), and
the row is inserted when absent (first conjunct). The `instance_list.py`
upsert overwrites every business column from the new record except
`compartment_id`, which — together with the key `instance_id` and the
scope columns `tenancy_ocid`, `region` — is absent from its `ON DUPLICATE
KEY UPDATE` list and keeps the stored value (second conjunct). Both
upserts are idempotent (third and fourth conjuncts), and running the
adb_list synchronization pass twice with unchanged upstream data and run
timestamp leaves the mirror table identical (fifth conjunct). -/
theorem claim_C6_upsert_replace_idempotent_amended :
    (∀ (adb : AdbItem) (comp : Comp) (cp : Option String) (run_ts : Int)
       (tid reg : String) (T : List AdbRow),
       adb_row adb comp cp run_ts tid reg ∈
         upsert_adb (adb_row adb comp cp run_ts tid reg) T ∧
       (∀ r ∈ upsert_adb (adb_row adb comp cp run_ts tid reg) T,
         r.adb_ocid = adb.id → r = adb_row adb comp cp run_ts tid reg) ∧
       (adb_row adb comp cp run_ts tid reg).last_refreshed_utc = run_ts) ∧
    (∀ old new_ : InstRow,
       (upsert_instance_merge old new_).compartment_name =
         new_.compartment_name ∧
       (upsert_instance_merge old new_).compartment_path =
         new_.compartment_path ∧
       (upsert_instance_merge old new_).display_name = new_.display_name ∧
       (upsert_instance_merge old new_).shape = new_.shape ∧
       (upsert_instance_merge old new_).ocpus = new_.ocpus ∧
       (upsert_instance_merge old new_).memory_gbs = new_.memory_gbs ∧
       (upsert_instance_merge old new_).lifecycle_state =
         new_.lifecycle_state ∧
       (upsert_instance_merge old new_).availability_domain =
         new_.availability_domain ∧
       (upsert_instance_merge old new_).primary_vnic_id =
         new_.primary_vnic_id ∧
       (upsert_instance_merge old new_).private_ips = new_.private_ips ∧
       (upsert_instance_merge old new_).public_ips = new_.public_ips ∧
       (upsert_instance_merge old new_).time_created_utc =
         new_.time_created_utc ∧
       (upsert_instance_merge old new_).last_refreshed_utc =
         new_.last_refreshed_utc ∧
       (upsert_instance_merge old new_).instance_id = old.instance_id ∧
       (upsert_instance_merge old new_).tenancy_ocid = old.tenancy_ocid ∧
       (upsert_instance_merge old new_).region = old.region ∧
       (upsert_instance_merge old new_).compartment_id =
         old.compartment_id) ∧
    (∀ (v : AdbRow) (T : List AdbRow),
       upsert_adb v (upsert_adb v T) = upsert_adb v T) ∧
    (∀ (v : InstRow) (T : List InstRow),
       upsert_instance v (upsert_instance v T) = upsert_instance v T) ∧
    (∀ (comps : List Comp) (tid reg tname : String)
       (u : String → Nat → SvcRes (List AdbItem)) (run_ts : Int)
       (T T1 : List AdbRow) (S : List String),
       adb_list_main comps tid reg tname u run_ts T = ⟨T1, S, none⟩ →
       S.Nodup →
       adb_list_main comps tid reg tname u run_ts T1 = ⟨T1, S, none⟩) := by
  refine ⟨?_, ?_, ?_, ?_, ?_⟩
  · intro adb comp cp run_ts tid reg T
    exact ⟨upsert_row_self_mem _ T,
      fun r hr hk => upsert_row_char hr hk, rfl⟩
  · intro old new_
    exact ⟨rfl, rfl, rfl, rfl, rfl, rfl, rfl, rfl, rfl, rfl, rfl, rfl, rfl,
      rfl, rfl, rfl, rfl⟩
  · intro v T
    exact upsert_row_idem v T (fun _ _ => rfl) (fun _ _ => rfl) rfl
  · intro v T
    exact upsert_row_idem v T (fun old h => by simp [upsert_instance_merge, h])
      (fun _ _ => rfl) rfl
  · intro comps tid reg tname u run_ts T T1 S h hnd
    cases herr : adb_run_err u comps with
    | some s =>
      exfalso
      simp [adb_list_main, adb_collect_norm, herr] at h
    | none =>
      simp only [adb_list_main, adb_collect_norm, herr, List.nil_append]
        at h ⊢
      rw [AdbRunOut.mk.injEq] at h
      obtain ⟨hT1, hS, -⟩ := h
      subst hS
      subst hT1
      rw [AdbRunOut.mk.injEq]
      refine ⟨?_, rfl, rfl⟩
      set obs := adb_observed
        (build_compartment_paths_adb comps tid tname " > ")
        tid reg u run_ts comps with hobs
      set U := upsert_fold (fun r => r.adb_ocid) (fun _ n => n) obs T with hU
      have hfold : upsert_fold (fun r => r.adb_ocid) (fun _ n => n) obs
          (adb_list_sweep tid reg (obs.map (fun r => r.adb_ocid)) U) =
          adb_list_sweep tid reg (obs.map (fun r => r.adb_ocid)) U := by
        apply upsert_fold_noop
        intro v hv
        have hvK : v.adb_ocid ∈ obs.map (fun r => r.adb_ocid) :=
          List.mem_map_of_mem _ hv
        have hKne : obs.map (fun r => r.adb_ocid) ≠ [] :=
          List.ne_nil_of_mem hvK
        constructor
        · refine ⟨v, ?_, rfl⟩
          obtain ⟨r, hrU, hk⟩ :=
            upsert_fold_key_mem (T := T) (fun _ _ _ => rfl) hv
          have hrv : r = v := upsert_fold_char hnd hv hrU hk
          subst hrv
          unfold adb_list_sweep
          rw [if_neg hKne]
          refine List.mem_filter.mpr ⟨hrU, ?_⟩
          simp only [decide_eq_true_eq]
          rintro ⟨-, -, hnot⟩
          exact hnot hvK
        · intro r hrS hk
          have hrU : r ∈ U := by
            unfold adb_list_sweep at hrS
            split at hrS
            · exact (List.mem_filter.mp hrS).1
            · exact (List.mem_filter.mp hrS).1
          exact upsert_fold_char hnd hv hrU hk
      rw [hfold, adb_list_sweep_idem]

/-- C6 counterexample: the claim says every business column is overwritten
on duplicate key (never a selective partial update). `upsert_instance`'s
`ON DUPLICATE KEY UPDATE` list omits `compartment_id`: upserting a record
for instance i1 that moved to compartment B leaves the stored
compartment_id A in place. -/
theorem claim_C6_counterexample :
    (upsert_instance c6_new [c6_old]).map (fun r => r.compartment_id) =
      ["A"] ∧
    c6_new.compartment_id = "B" ∧ ("A" : String) ≠ "B" := by
  decide

/-- Witness for the amended C6: the built adb row carries the run
timestamp, and a second synchronization pass with unchanged upstream and
timestamp leaves the concrete mirror table unchanged. -/
theorem claim_C6_upsert_replace_idempotent_amended_witness :
    (adb_row (cw_adb "x") cw_comp none 7 "t" "r").last_refreshed_utc = 7 ∧
    adb_list_main [cw_comp] "t" "r" "acme" c6_u 3 c6_T1 =
      ⟨c6_T1, ["x"], none⟩ := by
  constructor
  · exact (claim_C6_upsert_replace_idempotent_amended.1 (cw_adb "x") cw_comp
      none 7 "t" "r" []).2.2
  · exact claim_C6_upsert_replace_idempotent_amended.2.2.2.2 [cw_comp] "t" "r"
      "acme" c6_u 3 [] c6_T1 ["x"] (by decide) (by decide)

/-- C7 counterexample: the claim says a node with a null parent_id maps to
"root_name > node.name" in the resolver. `build_2level_compartment_path`
of `filesystem_list.py` (a cited source of the claim) returns the tenancy
name alone for such a node: for node c1 (name teamA, parent null) under
root acme it yields "acme", not "acme > teamA". -/
theorem claim_C7_counterexample :
    build_2level_compartment_path "c1" [c7_c1] "t" "acme" " > " =
      some "acme" ∧
    some ("acme" : String) ≠ some ("acme" ++ " > " ++ "teamA") := by
  decide

/-- Reduction of the filesystem path builder once the node lookup
succeeds. -/
theorem build_2level_eq_of_find {comps : List Comp}
    {cid tid tname sep : String} {comp : Comp}
    (hfind : comps.find? (fun c => c.id == cid) = some comp) :
    build_2level_compartment_path cid comps tid tname sep =
      (if cid = tid then some tname
       else
         match comp.parent with
         | none => some tname
         | some p =>
           if p = tid then some (tname ++ sep ++ comp.name)
           else
             match comps.find? (fun d => d.id == p) with
             | none => some comp.name
             | some par => some (par.name ++ sep ++ comp.name)) := by
  unfold build_2level_compartment_path
  rw [hfind]

/-- C7 amended: the map-building resolvers (formalized on `adb_list.py`'s
`build_compartment_paths`) follow the claim's three-case rule — null or
root parent gives "root_name > name", a parent in the map gives
"parent.name > name", a parent outside the map degrades to the bare name
(first four conjuncts). `filesystem_list.py`'s per-node
`build_2level_compartment_path` differs in the first case: a null
parent_id (or the root id itself) yields the root name alone; its other
cases follow the same rule (next four conjuncts). The spec's scenario
holds for the map-building resolver (last conjunct). -/
theorem claim_C7_hierarchy_paths_amended :
    (∀ (comps : List Comp) (tid root sep : String) (c : Comp), c ∈ comps →
       c.parent = none →
       (c.id, root ++ sep ++ c.name) ∈
         build_compartment_paths_adb comps tid root sep) ∧
    (∀ (comps : List Comp) (tid root sep : String) (c : Comp), c ∈ comps →
       c.parent = some tid →
       (c.id, root ++ sep ++ c.name) ∈
         build_compartment_paths_adb comps tid root sep) ∧
    (∀ (comps : List Comp) (tid root sep : String) (c par : Comp)
       (p : String), c ∈ comps → c.parent = some p → p ≠ tid →
       comps.find? (fun d => d.id == p) = some par →
       (c.id, par.name ++ sep ++ c.name) ∈
         build_compartment_paths_adb comps tid root sep) ∧
    (∀ (comps : List Comp) (tid root sep : String) (c : Comp) (p : String),
       c ∈ comps → c.parent = some p → p ≠ tid →
       comps.find? (fun d => d.id == p) = none →
       (c.id, c.name) ∈ build_compartment_paths_adb comps tid root sep) ∧
    (∀ (comps : List Comp) (cid tid tname sep : String) (comp : Comp),
       comps.find? (fun c => c.id == cid) = some comp →
       comp.parent = none →
       build_2level_compartment_path cid comps tid tname sep = some tname) ∧
    (∀ (comps : List Comp) (cid tid tname sep : String) (comp : Comp),
       comps.find? (fun c => c.id == cid) = some comp → cid ≠ tid →
       comp.parent = some tid →
       build_2level_compartment_path cid comps tid tname sep =
         some (tname ++ sep ++ comp.name)) ∧
    (∀ (comps : List Comp) (cid tid tname sep : String) (comp par : Comp)
       (p : String),
       comps.find? (fun c => c.id == cid) = some comp → cid ≠ tid →
       comp.parent = some p → p ≠ tid →
       comps.find? (fun d => d.id == p) = some par →
       build_2level_compartment_path cid comps tid tname sep =
         some (par.name ++ sep ++ comp.name)) ∧
    (∀ (comps : List Comp) (cid tid tname sep : String) (comp : Comp)
       (p : String),
       comps.find? (fun c => c.id == cid) = some comp → cid ≠ tid →
       comp.parent = some p → p ≠ tid →
       comps.find? (fun d => d.id == p) = none →
       build_2level_compartment_path cid comps tid tname sep =
         some comp.name) ∧
    (List.lookup "c1"
        (build_compartment_paths_adb [c7_c1, c7_c2] "t" "acme" " > ") =
      some "acme > teamA" ∧
     List.lookup "c2"
        (build_compartment_paths_adb [c7_c1, c7_c2] "t" "acme" " > ") =
      some "teamA > sub1") := by
  refine ⟨?_, ?_, ?_, ?_, ?_, ?_, ?_, ?_, by decide⟩
  · intro comps tid root sep c hc hpar
    exact List.mem_map.mpr ⟨c, hc, by rw [hpar]⟩
  · intro comps tid root sep c hc hpar
    exact List.mem_map.mpr ⟨c, hc, by rw [hpar]; simp⟩
  · intro comps tid root sep c par p hc hpar hne hfind
    exact List.mem_map.mpr ⟨c, hc, by rw [hpar]; simp [hne, hfind]⟩
  · intro comps tid root sep c p hc hpar hne hfind
    exact List.mem_map.mpr ⟨c, hc, by rw [hpar]; simp [hne, hfind]⟩
  · intro comps cid tid tname sep comp hfind hpar
    rw [build_2level_eq_of_find hfind, hpar]
    split <;> rfl
  · intro comps cid tid tname sep comp hfind hcid hpar
    rw [build_2level_eq_of_find hfind, if_neg hcid, hpar]
    simp
  · intro comps cid tid tname sep comp par p hfind hcid hpar hne hfind2
    rw [build_2level_eq_of_find hfind, if_neg hcid, hpar]
    simp [hne, hfind2]
  · intro comps cid tid tname sep comp p hfind hcid hpar hne hfind2
    rw [build_2level_eq_of_find hfind, if_neg hcid, hpar]
    simp [hne, hfind2]

/-- Witness for the amended C7: the null-parent and in-map cases applied
to the spec's scenario nodes, and the filesystem builder's divergent
null-parent case applied concretely. -/
theorem claim_C7_hierarchy_paths_amended_witness :
    ("c1", "acme" ++ " > " ++ "teamA") ∈
      build_compartment_paths_adb [c7_c1, c7_c2] "t" "acme" " > " ∧
    ("c2", "teamA" ++ " > " ++ "sub1") ∈
      build_compartment_paths_adb [c7_c1, c7_c2] "t" "acme" " > " ∧
    build_2level_compartment_path "c1" [c7_c1, c7_c2] "t" "acme" " > " =
      some "acme" := by
  refine ⟨?_, ?_, ?_⟩
  · exact claim_C7_hierarchy_paths_amended.1 [c7_c1, c7_c2] "t" "acme" " > "
      c7_c1 (by decide) (by decide)
  · exact claim_C7_hierarchy_paths_amended.2.2.1 [c7_c1, c7_c2] "t" "acme"
      " > " c7_c2 c7_c1 "c1" (by decide) (by decide) (by decide) (by decide)
  · exact claim_C7_hierarchy_paths_amended.2.2.2.2.1 [c7_c1, c7_c2] "c1" "t"
      "acme" " > " c7_c1 (by decide) (by decide)

/-- A lookup over an association list none of whose keys is `k` fails. -/
theorem lookup_eq_none_of_keys_ne {β : Type} :
    ∀ (l : List (String × β)) (k : String), (∀ e ∈ l, e.1 ≠ k) →
      List.lookup k l = none := by
  intro l k
  induction l with
  | nil => intro _; rfl
  | cons e rest ih =>
    intro h
    obtain ⟨k1, v1⟩ := e
    have hne : k1 ≠ k := h (k1, v1) (List.mem_cons_self _ _)
    have hk : (k == k1) = false := by
      simp only [beq_eq_false_iff_ne, ne_eq]
      exact fun heq => hne heq.symm
    simp only [List.lookup, hk]
    exact ih (fun e he => h e (List.mem_cons_of_mem _ he))

/-- C8 counterexample: the claim says the root id is absent from the
returned map in every script's path builder. `instance_list.py`'s builder
(lines 146-149, a cited source) explicitly inserts `paths[root] =
tenancy_name`: with the synthesized root node in the map, looking up the
root id succeeds. -/
theorem claim_C8_counterexample :
    List.lookup "t" (build_compartment_paths_instance [c8_root] "t" " > ") =
      some "acme" := by
  decide

/-- C8 amended: the builders of `dbcs_list.py` and `lb_list.py` skip the
root id, so it is absent from their returned maps for every input; but
`instance_list.py`'s builder maps the root id to the tenancy name alone
whenever the root node is in its input map (which
`load_compartments_with_root` guarantees). `adb_list.py`'s builder has no
root special-case at all — the root is missing from its map only because
`list_all_compartments` never returns the root. -/
theorem claim_C8_root_entry_amended :
    (∀ (comps : List Comp) (tid tname sep : String),
       List.lookup tid (build_compartment_paths_dbcs comps tid tname sep) =
         none) ∧
    (∀ (comps : List Comp) (tid tname sep : String),
       List.lookup tid (build_compartment_paths_lb comps tid tname sep) =
         none) ∧
    (∀ (comps : List Comp) (tid sep : String) (root : Comp),
       comps.find? (fun c => c.id == tid) = some root →
       (tid, root.name) ∈ build_compartment_paths_instance comps tid sep) := by
  refine ⟨?_, ?_, ?_⟩
  · intro comps tid tname sep
    apply lookup_eq_none_of_keys_ne
    intro e he
    obtain ⟨c, hc, hfc⟩ := List.mem_filterMap.mp he
    by_cases hcid : c.id = tid
    · rw [if_pos hcid] at hfc
      simp at hfc
    · rw [if_neg hcid] at hfc
      injection hfc with hev
      subst hev
      split
      · simpa using hcid
      · split
        · simpa using hcid
        · split <;> simpa using hcid
  · intro comps tid tname sep
    apply lookup_eq_none_of_keys_ne
    intro e he
    obtain ⟨c, hc, hfc⟩ := List.mem_filterMap.mp he
    by_cases hcid : c.id = tid
    · rw [if_pos hcid] at hfc
      simp at hfc
    · rw [if_neg hcid] at hfc
      injection hfc with hev
      subst hev
      split
      · simpa using hcid
      · split
        · simpa using hcid
        · split <;> simpa using hcid
  · intro comps tid sep root hfind
    have hroot_mem : root ∈ comps := List.mem_of_find?_eq_some hfind
    have hroot_id : root.id = tid := by simpa using List.find?_some hfind
    simp only [build_compartment_paths_instance, hfind]
    refine List.mem_map.mpr ⟨root, hroot_mem, ?_⟩
    rw [if_pos hroot_id, hroot_id]

/-- Witness for the amended C8: the root entry the instance builder emits,
at the concrete synthesized root. -/
theorem claim_C8_root_entry_amended_witness :
    ("t", "acme") ∈ build_compartment_paths_instance [c8_root] "t" " > " :=
  claim_C8_root_entry_amended.2.2 [c8_root] "t" " > " c8_root (by decide)

/-- C9 counterexample: the claim says every sub-resource fetch failing
with a not-found signal is treated as an empty list instead of raising.
The export-list fetch of `filesystem_list.py` (lines 468-481) handles
only 429: a 404 `ServiceError` — the parent mount target's export set
deleted concurrently — is re-raised and aborts the run. -/
theorem claim_C9_counterexample :
    fs_export_fetch (α := Unit) (SvcRes.svcErr 404) = Except.error 404 := by
  rfl

/-- C9 amended: the snapshot fetch of `filesystem_list.py` recovers 404
(and 429) as an empty snapshot list and raises anything else;
`instance_volume.py`'s per-instance info fetch recovers 404 by skipping
the instance and raises anything else; its volume-backup fetch recovers
every `ServiceError` by falling back to the structured-search result;
but the export fetch of `filesystem_list.py` recovers only 429 and
re-raises 404 — the not-found recovery is not universal. -/
theorem claim_C9_not_found_recovery_amended :
    (∀ (α : Type) (l : List α), fs_snapshot_fetch (SvcRes.ok l) = .ok l) ∧
    fs_snapshot_fetch (α := Unit) (SvcRes.svcErr 404) = .ok [] ∧
    fs_snapshot_fetch (α := Unit) (SvcRes.svcErr 429) = .ok [] ∧
    (∀ s : Nat, s ≠ 404 → s ≠ 429 →
       fs_snapshot_fetch (α := Unit) (SvcRes.svcErr s) = .error s) ∧
    iv_get_instance_info (SvcRes.svcErr 404) = .ok none ∧
    (∀ s : Nat, s ≠ 404 →
       iv_get_instance_info (SvcRes.svcErr s) = .error s) ∧
    (∀ (α : Type) (sf : List α) (s : Nat),
       iv_list_backups (SvcRes.svcErr s) sf = sf) ∧
    fs_export_fetch (α := Unit) (SvcRes.svcErr 404) = Except.error 404 := by
  refine ⟨?_, rfl, rfl, ?_, rfl, ?_, ?_, rfl⟩
  · intro α l
    rfl
  · intro s h404 h429
    simp [fs_snapshot_fetch, h404, h429]
  · intro s h404
    simp [iv_get_instance_info, h404]
  · intro α sf s
    rfl

/-- Witness for the amended C9: the raise branches applied at status
500. -/
theorem claim_C9_not_found_recovery_amended_witness :
    fs_snapshot_fetch (α := Unit) (SvcRes.svcErr 500) = .error 500 ∧
    iv_get_instance_info (SvcRes.svcErr 500) = .error 500 := by
  constructor
  · exact claim_C9_not_found_recovery_amended.2.2.2.1 500 (by decide)
      (by decide)
  · exact claim_C9_not_found_recovery_amended.2.2.2.2.2.1 500 (by decide)

/-- The dbcs_backup per-database upsert loop is the fold of full-replace
upserts of its in-window rows. -/
theorem dbcs_backup_upsert_loop_norm (db_name : String)
    (lookback : Option Int) :
    ∀ (bs : List DbcsBkItem) (T : List DbcsBkRow) (seen : List String),
    dbcs_backup_upsert_loop db_name lookback bs T seen =
      (upsert_fold (fun r => r.id) (fun _ n => n)
        (bs.filterMap (fun b =>
          if dbcs_backup_skip lookback b then none
          else some (dbcs_backup_row b db_name))) T,
       seen ++ (bs.filterMap (fun b =>
          if dbcs_backup_skip lookback b then none
          else some (dbcs_backup_row b db_name))).map (fun r => r.id)) := by
  intro bs
  induction bs with
  | nil =>
    intro T seen
    simp [dbcs_backup_upsert_loop, upsert_fold]
  | cons b rest ih =>
    intro T seen
    by_cases hskip : dbcs_backup_skip lookback b
    · simp [dbcs_backup_upsert_loop, hskip, ih]
    · simp [dbcs_backup_upsert_loop, hskip, ih, upsert_fold, dbcs_backup_row]

/-- The dbcs_backup collection equals the fold of the observed in-window
rows, with their ids as seen-set. -/
theorem dbcs_backup_collect_norm (uName : String → Except Unit String)
    (uBks : String → List DbcsBkItem) (lookback : Option Int) :
    ∀ (cfg : List String) (T : List DbcsBkRow) (seen : List String),
    dbcs_backup_collect uName uBks lookback cfg T seen =
      (upsert_fold (fun r => r.id) (fun _ n => n)
        (dbcs_backup_observed uName uBks lookback cfg) T,
       seen ++ (dbcs_backup_observed uName uBks lookback cfg).map
         (fun r => r.id)) := by
  intro cfg
  induction cfg with
  | nil =>
    intro T seen
    simp [dbcs_backup_collect, dbcs_backup_observed, upsert_fold]
  | cons db rest ih =>
    intro T seen
    simp only [dbcs_backup_collect, dbcs_backup_observed]
    rw [dbcs_backup_upsert_loop_norm, ih, upsert_fold_append]
    simp [List.map_append, List.append_assoc]

/-- Every observed dbcs_backup row is within the lookback window (or has
no start time). -/
theorem dbcs_backup_observed_window (uName : String → Except Unit String)
    (uBks : String → List DbcsBkItem) (L : Int) :
    ∀ (cfg : List String),
    ∀ r ∈ dbcs_backup_observed uName uBks (some L) cfg,
      r.time_started = none ∨ ∃ t : Int, r.time_started = some t ∧ L ≤ t := by
  intro cfg
  induction cfg with
  | nil =>
    intro r hr
    simp [dbcs_backup_observed] at hr
  | cons db rest ih =>
    intro r hr
    simp only [dbcs_backup_observed] at hr
    rcases List.mem_append.mp hr with h1 | h2
    · obtain ⟨b, _, hfb⟩ := List.mem_filterMap.mp h1
      by_cases hskip : dbcs_backup_skip (some L) b
      · rw [if_pos hskip] at hfb
        simp at hfb
      · rw [if_neg hskip] at hfb
        injection hfb with hev
        subst hev
        cases hts : b.time_started with
        | none => exact Or.inl (by simp [dbcs_backup_row, hts])
        | some t =>
          refine Or.inr ⟨t, by simp [dbcs_backup_row, hts], ?_⟩
          unfold dbcs_backup_skip at hskip
          rw [hts] at hskip
          simpa using hskip
    · exact ih r h2

/-- Every observed dbcs_backup row stems from a non-skipped upstream
backup of a configured database. -/
theorem dbcs_backup_observed_src (uName : String → Except Unit String)
    (uBks : String → List DbcsBkItem) (lookback : Option Int) :
    ∀ (cfg : List String),
    ∀ r ∈ dbcs_backup_observed uName uBks lookback cfg,
      ∃ db ∈ cfg, ∃ b ∈ uBks db,
        dbcs_backup_skip lookback b = false ∧ b.id = r.id := by
  intro cfg
  induction cfg with
  | nil =>
    intro r hr
    simp [dbcs_backup_observed] at hr
  | cons db rest ih =>
    intro r hr
    simp only [dbcs_backup_observed] at hr
    rcases List.mem_append.mp hr with h1 | h2
    · obtain ⟨b, hb, hfb⟩ := List.mem_filterMap.mp h1
      by_cases hskip : dbcs_backup_skip lookback b
      · rw [if_pos hskip] at hfb
        simp at hfb
      · rw [if_neg hskip] at hfb
        injection hfb with hev
        refine ⟨db, List.mem_cons_self db rest, b, hb,
          by simpa using hskip, ?_⟩
        rw [← hev]
        rfl
    · obtain ⟨db2, hdb2, b, hb, hs, hid⟩ := ih r h2
      exact ⟨db2, List.mem_cons_of_mem _ hdb2, b, hb, hs, hid⟩

/-- C10: in `dbcs_backup.py`, every backup whose `time_started` is older
than the 14-day lookback bound is skipped during the upsert phase and its
id is excluded from the seen-set (first conjunct, assuming upstream
backup ids are pairwise distinct); when the seen-set is non-empty the
final sweep leaves the table holding exactly the seen ids — so stored
rows of out-of-window backups are deleted even though they still exist
upstream (second conjunct on ids of the swept table) — and every
surviving row either lacks a `time_started` or started within the window
(third conjunct). -/
theorem claim_C10_lookback_window_sweep :
    ∀ (cfg : List String) (uName : String → Except Unit String)
      (uBks : String → List DbcsBkItem) (now : Int) (T Tf : List DbcsBkRow)
      (seen : List String),
      dbcs_backup_main cfg uName uBks (dbcs_lookback_ts now) T = (Tf, seen) →
      ((cfg.map uBks).flatten.map (fun b => b.id)).Nodup →
      seen ≠ [] →
      ((∀ db ∈ cfg, ∀ b ∈ uBks db, ∀ t : Int, b.time_started = some t →
          t < now - LOOKBACK_DAYS → b.id ∉ seen) ∧
       (∀ i : String, (∃ r ∈ Tf, r.id = i) ↔ i ∈ seen) ∧
       (∀ r ∈ Tf, r.time_started = none ∨
          ∃ t : Int, r.time_started = some t ∧ now - LOOKBACK_DAYS ≤ t)) := by
  intro cfg uName uBks now T Tf seen h hnd hne
  have hmain : dbcs_backup_main cfg uName uBks (dbcs_lookback_ts now) T =
      (dbcs_backup_sweep
        ((dbcs_backup_observed uName uBks (some (now - LOOKBACK_DAYS))
          cfg).map (fun r => r.id))
        (upsert_fold (fun r => r.id) (fun _ n => n)
          (dbcs_backup_observed uName uBks (some (now - LOOKBACK_DAYS)) cfg)
          T),
       (dbcs_backup_observed uName uBks (some (now - LOOKBACK_DAYS))
         cfg).map (fun r => r.id)) := by
    simp only [dbcs_backup_main, dbcs_lookback_ts, dbcs_backup_collect_norm,
      List.nil_append]
  rw [hmain, Prod.mk.injEq] at h
  obtain ⟨hTf, hseen⟩ := h
  subst hseen
  subst hTf
  refine ⟨?_, ?_, ?_⟩
  · intro db hdb b hb t hts htl hmem
    obtain ⟨r, hr, hkr⟩ := List.mem_map.mp hmem
    obtain ⟨db2, hdb2, b2, hb2, hskip2, hid2⟩ :=
      dbcs_backup_observed_src uName uBks (some (now - LOOKBACK_DAYS)) cfg
        r hr
    have hbid : b2.id = b.id := by rw [hid2, hkr]
    have hjoin1 : b ∈ (cfg.map uBks).flatten :=
      List.mem_flatten.mpr ⟨uBks db, List.mem_map_of_mem _ hdb, hb⟩
    have hjoin2 : b2 ∈ (cfg.map uBks).flatten :=
      List.mem_flatten.mpr ⟨uBks db2, List.mem_map_of_mem _ hdb2, hb2⟩
    have hbb : b2 = b := List.inj_on_of_nodup_map hnd hjoin2 hjoin1 hbid
    subst hbb
    unfold dbcs_backup_skip at hskip2
    rw [hts] at hskip2
    simp [htl] at hskip2
  · intro i
    constructor
    · rintro ⟨r, hr, hkr⟩
      unfold dbcs_backup_sweep at hr
      rw [if_neg hne] at hr
      have hmem2 := (List.mem_filter.mp hr).2
      simp only [decide_eq_true_eq] at hmem2
      exact hkr ▸ hmem2
    · intro hi
      obtain ⟨v, hv, hkv⟩ := List.mem_map.mp hi
      obtain ⟨r, hr, hk⟩ := upsert_fold_key_mem (T := T) (fun _ _ _ => rfl) hv
      refine ⟨r, ?_, hk.trans hkv⟩
      unfold dbcs_backup_sweep
      rw [if_neg hne]
      refine List.mem_filter.mpr ⟨hr, ?_⟩
      simp only [decide_eq_true_eq]
      rw [hk, hkv]
      exact hi
  · intro r hr
    unfold dbcs_backup_sweep at hr
    rw [if_neg hne] at hr
    have hmem1 := (List.mem_filter.mp hr).1
    have hid := (List.mem_filter.mp hr).2
    simp only [decide_eq_true_eq] at hid
    rcases mem_upsert_fold hmem1 with ⟨v, hv, hev⟩ | ⟨_, hnk⟩
    · exact hev ▸ dbcs_backup_observed_window uName uBks
        (now - LOOKBACK_DAYS) cfg v hv
    · exact absurd hid hnk

/-- Witness for C10: a concrete run at `now = 24` (lookback bound 10)
with one in-window backup (start 20) and one out-of-window backup
(start 1): the stale id is excluded from the seen-set and the swept table
holds exactly the fresh id. -/
theorem claim_C10_lookback_window_sweep_witness :
    ("bOut" : String) ∉ (["bIn"] : List String) ∧
    (∃ r ∈ [dbcs_backup_row c10_in "db"], r.id = "bIn") := by
  have h := claim_C10_lookback_window_sweep ["d1"] c10_uname c10_ubks 24
    [c10_oldrow] [dbcs_backup_row c10_in "db"] ["bIn"] (by decide)
    (by decide) (by decide)
  exact ⟨h.1 "d1" (by decide) c10_out (by decide) 1 (by decide) (by decide),
    (h.2.1 "bIn").mpr (by decide)⟩
